import Mathlib

/-!
# Verification of the Scraper repository's URL classification and extraction logic

Shallow embedding of the core logic of `cymax_scraper` (sitemap.py, parser.py,
fetcher.py) and `colemanfurniture_scraper` (fetcher/product_fetcher.py,
utils/sitemap_processor.py).  Pure string/JSON processing is translated
directly; effects (HTTP fetches, Selenium, BeautifulSoup/lxml parsing of raw
HTML) enter as explicit oracle parameters.  All definitions are executable.
-/

set_option maxHeartbeats 1000000

namespace Scraper

/-! ## String helpers modelling Python string primitives (ASCII fragment) -/

/-- `chPre sub l`: `sub` is a prefix of `l`. -/
def chPre : List Char → List Char → Bool
  | [], _ => true
  | _ :: _, [] => false
  | a :: as, b :: bs => a == b && chPre as bs

/-- `chSub sub l`: `sub` occurs as a contiguous substring of `l`. -/
def chSub (sub : List Char) : List Char → Bool
  | [] => chPre sub []
  | c :: rest => chPre sub (c :: rest) || chSub sub rest

/-- Python's `sub in hay` substring test. -/
def strHas (hay sub : String) : Bool := chSub sub.data hay.data

/-- Drop leading characters satisfying `p`. -/
def dropLeadingP (p : Char → Bool) : List Char → List Char
  | [] => []
  | c :: rest => if p c then dropLeadingP p rest else c :: rest

/-- Strip characters satisfying `p` from both ends. -/
def stripP (p : Char → Bool) (l : List Char) : List Char :=
  (dropLeadingP p ((dropLeadingP p l).reverse)).reverse

/-- Python's whitespace set for `str.strip()` (ASCII part). -/
def pyWs : List Char := [' ', '\t', '\n', '\r', '\x0b', '\x0c']

/-- Python `s.strip(chars)`. -/
def pyStripChars (s : String) (set : List Char) : String :=
  ⟨stripP (fun c => set.contains c) s.data⟩

/-- Python `s.strip()` (default whitespace). -/
def pyStrStrip (s : String) : String := pyStripChars s pyWs

/-- ASCII lowercasing of one character (Python `str.lower`, ASCII part). -/
def lowerChar (c : Char) : Char :=
  if 'A' ≤ c ∧ c ≤ 'Z' then Char.ofNat (c.toNat + 32) else c

/-- Python `s.lower()` (ASCII part; the scraped pages are ASCII). -/
def strLower (s : String) : String := ⟨s.data.map lowerChar⟩

/-! ## cymax_scraper/sitemap.py : `is_product_url` -/

/-- The denylist in `is_product_url` (`cymax_scraper/sitemap.py`). -/
def cymaxSkipWords : List String :=
  ["sitemap", "blog", "news", "about", "contact", "policy", "privacy", "xml"]

/-- `cymax_scraper/sitemap.py` `is_product_url(url)`. -/
def is_product_url (url : String) : Bool :=
  if url = "" ∨ url.length < 50 then false
  else
    let u := strLower url
    ((u.endsWith ".html" || u.endsWith ".htm")
      && strHas u "cymax.com"
      && !(cymaxSkipWords.any (fun w => strHas u w)))

/-! ## colemanfurniture_scraper : `ProductFetcher._is_plp_url`

`_is_plp_url` calls `urllib.parse.urlparse(url).path`.  We model CPython's
`urlsplit` path extraction (scheme split, netloc split, fragment then query
split) plus `urlparse`'s `;parameters` split from the last path segment.
The IPv6-bracket validation (which only raises) is omitted. -/

def isAsciiAlpha (c : Char) : Bool := ('A' ≤ c && c ≤ 'Z') || ('a' ≤ c && c ≤ 'z')

def isAsciiDigit (c : Char) : Bool := '0' ≤ c && c ≤ '9'

/-- CPython `scheme_chars`. -/
def isSchemeChar (c : Char) : Bool :=
  isAsciiAlpha c || isAsciiDigit c || c == '+' || c == '-' || c == '.'

/-- Index of the first occurrence of `c` in `l` at or after `start`. -/
def idxOfFrom (c : Char) (l : List Char) (start : Nat) : Option Nat :=
  match (l.drop start).findIdx? (· == c) with
  | some j => some (start + j)
  | none => none

/-- Index of the last occurrence of `c` in `l`. -/
def lastIdxOf (c : Char) (l : List Char) : Option Nat :=
  match l.reverse.findIdx? (· == c) with
  | some j => some (l.length - 1 - j)
  | none => none

/-- Schemes for which CPython `urlparse` splits `;parameters` off the path
(`uses_params`); note it contains the empty scheme. -/
def usesParams : List String :=
  ["", "ftp", "hdl", "prospero", "http", "imap", "https", "shttp", "rtsp",
   "rtspu", "sip", "sips", "mms", "sftp", "tel"]

/-- The `.path` attribute of Python `urllib.parse.urlparse(url)`.
Models CPython: strip leading C0-control/space, delete tab/CR/LF, split a
valid scheme, split `//netloc`, split fragment then query, then split
`;parameters` from the last segment when the scheme uses parameters. -/
def urlparsePath (url : String) : String :=
  let l0 := (dropLeadingP (fun c => c ≤ ' ') url.data).filter
      (fun c => !(c == '\t' || c == '\r' || c == '\n'))
  let schemeAndRest : String × List Char :=
    match idxOfFrom ':' l0 0 with
    | some i =>
      if 0 < i && isAsciiAlpha (l0.headD ' ') && (l0.take i).all isSchemeChar then
        (strLower ⟨l0.take i⟩, l0.drop (i + 1))
      else ("", l0)
    | none => ("", l0)
  let scheme := schemeAndRest.1
  let l1 := schemeAndRest.2
  let l2 :=
    match l1 with
    | '/' :: '/' :: rest => rest.dropWhile (fun c => !(c == '/' || c == '?' || c == '#'))
    | _ => l1
  let l3 := l2.takeWhile (· ≠ '#')
  let l4 := l3.takeWhile (· ≠ '?')
  let l5 :=
    if scheme ∈ usesParams ∧ l4.contains ';' then
      if l4.contains '/' then
        match lastIdxOf '/' l4 with
        | some k =>
          match idxOfFrom ';' l4 k with
          | some i => l4.take i
          | none => l4
        | none => l4
      else
        match idxOfFrom ';' l4 0 with
        | some i => l4.take i
        | none => l4
    else l4
  ⟨l5⟩

/-- `ProductFetcher._is_plp_url` (colemanfurniture
`fetcher/product_fetcher.py`). -/
def is_plp_url (url : String) : Bool :=
  let path := pyStripChars (urlparsePath url) ['/']
  if path = "" then true
  else strHas path "/"

/-! ## JSON values as produced by `json.loads` -/

inductive Json where
  | null
  | bool (b : Bool)
  | num (n : Int)
  | str (s : String)
  | arr (elems : List Json)
  | obj (fields : List (String × Json))
deriving Repr, Inhabited

/-- Lookup in a parsed JSON object; with duplicate keys `json.loads` keeps
the last binding, so the rightmost match wins. -/
def jsonGet : List (String × Json) → String → Option Json
  | [], _ => none
  | (k, v) :: rest, key =>
    match jsonGet rest key with
    | some v2 => some v2
    | none => if k = key then some v else none

/-- Python `d.get(key, default)` on a parsed JSON object. -/
def jsonGetD (fields : List (String × Json)) (key : String) (d : Json) : Json :=
  (jsonGet fields key).getD d

/-- Python `j == s` for a string literal `s`: only a string can equal a
string. -/
def jsonEqStr (j : Json) (s : String) : Bool :=
  match j with
  | .str t => t = s
  | _ => false

/-- `d.get(key) == s` (a missing key gives `None`, which is not a string). -/
def optJsonEqStr (o : Option Json) (s : String) : Bool :=
  match o with
  | some j => jsonEqStr j s
  | none => false

/-- Python truthiness of a parsed JSON value. -/
def Json.truthy : Json → Bool
  | .null => false
  | .bool b => b
  | .num n => n != 0
  | .str s => s ≠ ""
  | .arr l => !l.isEmpty
  | .obj l => !l.isEmpty

mutual

/-- Python `repr` of a parsed JSON value (string escaping elided; no claim
evaluates `repr` of a composite value). -/
def pyRepr : Json → String
  | .null => "None"
  | .bool true => "True"
  | .bool false => "False"
  | .num n => toString n
  | .str s => "\x27" ++ s ++ "\x27"
  | .arr l => "[" ++ pyReprList l ++ "]"
  | .obj l => "\x7b" ++ pyReprObj l ++ "\x7d"

def pyReprList : List Json → String
  | [] => ""
  | [j] => pyRepr j
  | j :: rest => pyRepr j ++ ", " ++ pyReprList rest

def pyReprObj : List (String × Json) → String
  | [] => ""
  | [(k, v)] => "\x27" ++ k ++ "\x27: " ++ pyRepr v
  | (k, v) :: rest => "\x27" ++ k ++ "\x27: " ++ pyRepr v ++ ", " ++ pyReprObj rest

end

/-- Python `str` of a parsed JSON value. -/
def pyStr : Json → String
  | .null => "None"
  | .bool true => "True"
  | .bool false => "False"
  | .num n => toString n
  | .str s => s
  | .arr l => pyRepr (.arr l)
  | .obj l => pyRepr (.obj l)

/-! ## colemanfurniture utils/sitemap_processor.py and chunk splitting -/

/-- `SitemapProcessor.get_sitemap_chunks(all_sitemaps, offset, limit)`. -/
def get_sitemap_chunks (all_sitemaps : List String) (offset limit : Nat) : List String :=
  if limit = 0 then all_sitemaps.drop offset
  else (all_sitemaps.drop offset).take limit

/-- Chunk `i` of `total` chunks with the auto chunk size `len(l) // total`,
as computed in `ProductFetcher.__init__` (chunk mode): the last chunk takes
everything from its start index onward. -/
def chunk_slice (l : List String) (total i : Nat) : List String :=
  let size := l.length / total
  let start := i * size
  if i = total - 1 then l.drop start
  else (l.drop start).take size

/-! ## cymax_scraper/sitemap.py : `get_product_urls` -/

/-- Inner loop of `get_product_urls` over the `<loc>` texts of one sitemap:
`url = loc.get_text().strip()` is added when `is_product_url(url)` holds and
the set is still under `limit` (`all_urls` is a set, modelled as a
duplicate-free list; adding a present element is a no-op). -/
def addLocs (limit : Nat) : List String → List String → List String
  | acc, [] => acc
  | acc, loc :: rest =>
    let url := pyStrStrip loc
    if is_product_url url = true ∧ acc.length < limit then
      addLocs limit (if url ∈ acc then acc else acc ++ [url]) rest
    else
      addLocs limit acc rest

/-- Outer loop of `get_product_urls`: each sitemap fetch yields `none`
(fetch failed, returned `None`) or `some (n, locs)` — an HTML string of
length `n` whose parsed `<loc>` tags have texts `locs`.  The body runs only
when `html and len(html) > 5000` (the length bound implies truthiness). -/
def procSitemaps (limit : Nat) (fetch : String → Option (Nat × List String)) :
    List String → List String → List String
  | acc, [] => acc
  | acc, sm :: rest =>
    match fetch sm with
    | some (_n, locs) =>
      if _n > 5000 then procSitemaps limit fetch (addLocs limit acc locs) rest
      else procSitemaps limit fetch acc rest
    | none => procSitemaps limit fetch acc rest

/-- `cymax_scraper/sitemap.py` `get_product_urls(limit, offset, max_sitemaps)`
over the configured sitemap URL list and a fetch oracle.  (The environment
variables `SITEMAP_OFFSET`/`MAX_SITEMAPS` are read but only logged.) -/
def get_product_urls (limit offset max_sitemaps : Nat)
    (sitemapUrls : List String) (fetch : String → Option (Nat × List String)) :
    List String :=
  let su := if offset > 0 then sitemapUrls.drop offset else sitemapUrls
  let su2 := if max_sitemaps > 0 then su.take max_sitemaps else su
  (procSitemaps limit fetch [] su2).take limit

/-! ## cymax_scraper/fetcher.py : `Fetcher.fetch` -/

/-- Result of one fetch attempt: an exception raised anywhere during the
attempt, or the `page_source` HTML obtained from the browser. -/
inductive AttemptResult where
  | err
  | page (html : String)

/-- The block indicators of `Fetcher.fetch`. -/
def blockIndicators : List String :=
  ["sorry, you have been blocked", "cloudflare ray id", "checking your browser",
   "access denied", "security check", "captcha", "distil", "incapsula", "shield"]

/-- `any(indicator in html_lower for indicator in block_indicators)`. -/
def isBlocked (html : String) : Bool :=
  blockIndicators.any (fun w => strHas (strLower html) w)

/-- Listing-page test (performed on the raw HTML, not the lowercased copy). -/
def isListingPage (html : String) : Bool :=
  strHas html "id=\"products-list-page\"" || strHas html "class=\"product-list\""

/-- Observable trace of `Fetcher.fetch`: the returned value, the number of
attempts made, and the backoff waits (in seconds) slept between attempts. -/
structure FetchTrace where
  result : Option String
  attempts : Nat
  waits : List Nat
deriving Repr, DecidableEq

/-- How one attempt of `Fetcher.fetch` ends: `done` returns from the
function (a successful page, or `None` for a listing page); `blockedSkip`
is the blocked-page branch, whose `continue` jumps to the next iteration
and so skips the backoff block at the end of the loop body; `failSleep`
reaches the backoff block (an exception caught by `except`, or a too-small
page falling off the end of the `try`). -/
inductive StepVerdict where
  | done (result : Option String)
  | blockedSkip
  | failSleep
deriving Repr, DecidableEq

/-- Body of one attempt of `Fetcher.fetch`: block detection first (its
`continue` skips the sleep), then the listing-page `return None`, then the
size check returning the HTML; an exception or a too-small page falls
through to the backoff block. -/
def fetchStep (minSize : Nat) (r : AttemptResult) : StepVerdict :=
  match r with
  | .err => .failSleep
  | .page html =>
    if isBlocked html then .blockedSkip
    else if isListingPage html then .done none
    else if html.length > minSize then .done (some html)
    else .failSleep

/-- The `for attempt in range(1, retries + 1)` loop of `Fetcher.fetch`, run
over the list of remaining attempt numbers; `oracle k` is the outcome of
attempt `k`.  Only an attempt that reaches the backoff block (verdict
`failSleep`) and has `attempt < retries` is followed by
`time.sleep(2 ** attempt)`; a blocked attempt continues with no sleep. -/
def fetchLoop (minSize retries : Nat) (oracle : Nat → AttemptResult) :
    List Nat → FetchTrace
  | [] => { result := none, attempts := 0, waits := [] }
  | k :: rest =>
    match fetchStep minSize (oracle k) with
    | .done r => { result := r, attempts := 1, waits := [] }
    | .blockedSkip =>
      let t := fetchLoop minSize retries oracle rest
      { result := t.result, attempts := t.attempts + 1, waits := t.waits }
    | .failSleep =>
      let t := fetchLoop minSize retries oracle rest
      { result := t.result, attempts := t.attempts + 1,
        waits := (if k < retries then [2 ^ k] else []) ++ t.waits }

/-- `Fetcher.fetch(url, retries)` as a trace over the attempt oracle, with
`minSize` the configured `min_html_size`. -/
def cymax_fetch (minSize retries : Nat) (oracle : Nat → AttemptResult) : FetchTrace :=
  fetchLoop minSize retries oracle (List.range' 1 retries)

/-- An attempt fails (the loop continues): an exception, a blocked page, or a
non-listing page whose HTML does not exceed `min_html_size`. -/
def attemptFails (minSize : Nat) : AttemptResult → Bool
  | .err => true
  | .page html =>
    isBlocked html || (!isListingPage html && !(html.length > minSize))

/-- The attempt hit the blocked-page branch (whose `continue` skips the
backoff sleep). -/
def attemptBlocked : AttemptResult → Bool
  | .err => false
  | .page html => isBlocked html

/-- A concrete listing page used to exercise `Fetcher.fetch`. -/
def cymaxListingHtml : String := "<div id=\"products-list-page\"></div>"

/-- An oracle whose every attempt raises. -/
def cymaxFailOracle : Nat → AttemptResult := fun _ => .err

/-- An oracle that raises on attempt 1 and serves a listing page on attempt 2. -/
def cymaxListOracle : Nat → AttemptResult :=
  fun k => if k = 2 then .page cymaxListingHtml else .err

/-- A concrete blocked page (matches the `captcha` block indicator). -/
def cymaxBlockedHtml : String := "<html>please solve this captcha</html>"

/-- An oracle whose first attempt is blocked and whose later attempts
raise. -/
def cymaxBlockedOracle : Nat → AttemptResult :=
  fun k => if k = 1 then .page cymaxBlockedHtml else .err

/-! ## colemanfurniture `ProductFetcher.extract_bundle_products` -/

/-- Python `j.get(k, d)` where `j` is expected to be a dict: `none` models
the `AttributeError` raised on a non-dict (caught by the enclosing
`except`). -/
def pyGetD (j : Json) (k : String) (d : Json) : Option Json :=
  match j with
  | .obj fields => some (jsonGetD fields k d)
  | _ => none

/-- `data.get('data', {}).get('content', {}).get('productLayouts', {})
.get('simpleItems', [])` followed by the `[:5]` slice: `none` models an
exception (caught, yielding nothing).  A string slices to its characters,
none of which is a dict, so it contributes no processable items; slicing any
other non-list raises. -/
def simpleItemsOf (j : Json) : Option (List Json) := do
  let d1 ← pyGetD j "data" (.obj [])
  let d2 ← pyGetD d1 "content" (.obj [])
  let d3 ← pyGetD d2 "productLayouts" (.obj [])
  let si ← pyGetD d3 "simpleItems" (.arr [])
  match si with
  | .arr l => some l
  | .str _ => some []
  | _ => none

/-- For one entry of `simpleItems`: the stripped sub-product URL to consider,
or `none` when the entry is skipped (`continue`): not a dict, `url` missing
or falsy, or not a string. -/
def bundleItemUrl (it : Json) : Option String :=
  match it with
  | .obj fields =>
    match jsonGet fields "url" with
    | some v =>
      if v.truthy = true then
        match v with
        | .str s => some (pyStrStrip s)
        | _ => none
      else none
    | none => none
  | _ => none

/-- The `for item in simple_items[:5]` loop of `extract_bundle_products`:
returns the yielded sub-product URLs (in order) and the updated
`_processed_bundle_urls` set (modelled as a list).  A URL equal to the
parent response's URL or already processed is skipped; otherwise it is added
to the set and yielded. -/
def bundleLoop (respUrl : String) : List Json → List String → List String × List String
  | [], processed => ([], processed)
  | it :: rest, processed =>
    match bundleItemUrl it with
    | none => bundleLoop respUrl rest processed
    | some s2 =>
      if s2 = respUrl ∨ s2 ∈ processed then bundleLoop respUrl rest processed
      else
        let r := bundleLoop respUrl rest (s2 :: processed)
        (s2 :: r.1, r.2)

/-- `ProductFetcher.extract_bundle_products` over the page's parsed hypernova
`App` script (`none` when absent, empty, or unparseable), the parent
response URL, and the current `_processed_bundle_urls` set. -/
def extract_bundle_products (hypernova : Option Json) (respUrl : String)
    (processed : List String) : List String × List String :=
  match hypernova with
  | none => ([], processed)
  | some j =>
    match simpleItemsOf j with
    | none => ([], processed)
    | some items => bundleLoop respUrl (items.take 5) processed

/-! ## colemanfurniture `ProductFetcher._extract_json_ld_data` -/

/-- Python `' > '.join` and friends. -/
def joinSep (sep : String) : List String → String
  | [] => ""
  | [x] => x
  | x :: rest => x ++ sep ++ joinSep sep rest

/-- The `product_data` dict of `_extract_json_ld_data`.  All fields are
assigned through `str(...)` except `category_url`, which receives the raw
`@id` value. -/
structure ProductData where
  sku : String
  mpn : String
  brand : String
  price : String
  image : String
  color : String
  status : String
  category : String
  category_url : Json
deriving Repr

def initProductData : ProductData :=
  { sku := "", mpn := "", brand := "", price := "", image := "", color := "",
    status := "", category := "", category_url := .str "" }

/-- `item_type in ('Product', 'ProductGroup') or (isinstance(item_type, list)
and any(t in ('Product', 'ProductGroup') for t in item_type))`. -/
def isProductType (t : Option Json) : Bool :=
  match t with
  | some (.str s) => s = "Product" ∨ s = "ProductGroup"
  | some (.arr l) => l.any (fun x => jsonEqStr x "Product" || jsonEqStr x "ProductGroup")
  | _ => false

/-- `if item.get('sku'): product_data['sku'] = str(item['sku'])`. -/
def pbSku (pd : ProductData) (fields : List (String × Json)) : ProductData :=
  if (jsonGetD fields "sku" .null).truthy then
    { pd with sku := pyStr (jsonGetD fields "sku" .null) }
  else pd

/-- `if item.get('mpn'): product_data['mpn'] = str(item['mpn'])`. -/
def pbMpn (pd : ProductData) (fields : List (String × Json)) : ProductData :=
  if (jsonGetD fields "mpn" .null).truthy then
    { pd with mpn := pyStr (jsonGetD fields "mpn" .null) }
  else pd

/-- `if item.get('color'): product_data['color'] = str(item['color'])`. -/
def pbColor (pd : ProductData) (fields : List (String × Json)) : ProductData :=
  if (jsonGetD fields "color" .null).truthy then
    { pd with color := pyStr (jsonGetD fields "color" .null) }
  else pd

/-- `if item.get('image'): product_data['image'] = str(item['image'])`. -/
def pbImage (pd : ProductData) (fields : List (String × Json)) : ProductData :=
  if (jsonGetD fields "image" .null).truthy then
    { pd with image := pyStr (jsonGetD fields "image" .null) }
  else pd

/-- The brand block: a dict brand always overwrites with `str(name or '')`,
any other truthy brand is `str`-ed. -/
def pbBrand (pd : ProductData) (fields : List (String × Json)) : ProductData :=
  match jsonGetD fields "brand" (.obj []) with
  | .obj bf => { pd with brand := pyStr (jsonGetD bf "name" (.str "")) }
  | v => if v.truthy then { pd with brand := pyStr v } else pd

/-- The offers block: price when truthy, then the availability keyword
chain for the status. -/
def pbOffers (pd : ProductData) (fields : List (String × Json)) : ProductData :=
  match jsonGetD fields "offers" (.obj []) with
  | .obj ofs =>
    let pd := if (jsonGetD ofs "price" .null).truthy then
        { pd with price := pyStr (jsonGetD ofs "price" .null) }
      else pd
    let availability := strLower (pyStr (jsonGetD ofs "availability" (.str "")))
    if strHas availability "instock" then { pd with status := "Active" }
    else if strHas availability "outofstock" || strHas availability "soldout" then
      { pd with status := "Out of Stock" }
    else if strHas availability "preorder" then { pd with status := "Active" }
    else pd
  | _ => pd

/-- The Product/ProductGroup branch of `_extract_json_ld_data`: the source's
mutation statements in order (it cannot raise: every access is guarded by
`isinstance` or `dict.get`). -/
def productBranch (pd : ProductData) (fields : List (String × Json)) : ProductData :=
  pbOffers (pbBrand (pbImage (pbColor (pbMpn (pbSku pd fields) fields) fields) fields) fields) fields

/-- Iteration over an `itemListElement` value: a list yields its elements; an
empty string or empty dict yields nothing; a non-empty string or dict raises
inside the loop before any mutation (its elements are characters or keys,
not dicts, so `element.get` raises `AttributeError`); any other value raises
`TypeError` at the `for`. -/
def iterElements (j : Json) : Option (List Json) :=
  match j with
  | .arr l => some l
  | .str s => if s = "" then some [] else none
  | .obj f => if f.isEmpty then some [] else none
  | _ => none

/-- The `for element in item.get('itemListElement', [])` loop of the
BreadcrumbList branch, collecting breadcrumb names and truthy `@id` values;
`none` models an exception (non-dict `element` or `item`, or a truthy
non-string `name`, whose `.lower()` raises). -/
def collectCrumbs : List Json → Option (List String × List Json)
  | [] => some ([], [])
  | el :: rest =>
    match el with
    | .obj ef =>
      match jsonGetD ef "item" (.obj []) with
      | .obj itf =>
        let name := jsonGetD itf "name" (.str "")
        let url := jsonGetD itf "@id" (.str "")
        let nameRes : Option (List String) :=
          if name.truthy then
            match name with
            | .str s =>
              if strLower s = "home" ∨ strLower s = "shop" ∨ strLower s = "all"
              then some [] else some [s]
            | _ => none
          else some []
        match nameRes with
        | none => none
        | some ns =>
          let us := if url.truthy then [url] else []
          match collectCrumbs rest with
          | none => none
          | some (cats, urls) => some (ns ++ cats, us ++ urls)
      | _ => none
    | _ => none

/-- The BreadcrumbList branch of `_extract_json_ld_data`: collect names and
URLs, drop the last name when more than one remains, then apply the category
mutations; `none` models an exception (the caller keeps prior mutations). -/
def breadcrumbBranch (pd : ProductData) (fields : List (String × Json)) :
    Option ProductData :=
  match iterElements (jsonGetD fields "itemListElement" (.arr [])) with
  | none => none
  | some els =>
    match collectCrumbs els with
    | none => none
    | some (cats, urls) =>
      let cats2 := if 1 < cats.length then cats.dropLast else cats
      let pd1 := if cats2.isEmpty then pd
        else { pd with category := joinSep " > " cats2 }
      some (if 2 ≤ urls.length then
          { pd1 with category_url := (urls.get? (urls.length - 2)).getD (.str "") }
        else pd1)

/-- One JSON-LD item (`for item in items`); `none` models an exception
escaping the item (possible only in the breadcrumb branch, before its
mutations). -/
def processItem (pd : ProductData) (item : Json) : Option ProductData :=
  match item with
  | .obj fields =>
    let t := jsonGet fields "@type"
    if isProductType t then some (productBranch pd fields)
    else if optJsonEqStr t "BreadcrumbList" then breadcrumbBranch pd fields
    else some pd
  | _ => some pd

/-- Process the items of one script, stopping at an exception but keeping
the mutations already made (`except Exception: continue`). -/
def runItems (pd : ProductData) : List Json → ProductData
  | [] => pd
  | it :: rest =>
    match processItem pd it with
    | some pd2 => runItems pd2 rest
    | none => pd

/-- `json.loads` result to item list: a dict is processed alone, a list
element-wise, anything else contributes nothing. -/
def topItems (j : Json) : List Json :=
  match j with
  | .obj f => [.obj f]
  | .arr l => l
  | _ => []

/-- One `<script type="application/ld+json">` body: `none` when empty or
failing `json.loads` (`except json.JSONDecodeError: continue`). -/
def runScript (pd : ProductData) (s : Option Json) : ProductData :=
  match s with
  | none => pd
  | some j => runItems pd (topItems j)

/-- `ProductFetcher._extract_json_ld_data` over the page's parsed JSON-LD
scripts. -/
def extract_json_ld_data (scripts : List (Option Json)) : ProductData :=
  scripts.foldl runScript initProductData

/-- An item that is not a BreadcrumbList dict. -/
def itemNotBc (it : Json) : Bool :=
  match it with
  | .obj fields => !(optJsonEqStr (jsonGet fields "@type") "BreadcrumbList")
  | _ => true

/-- A script containing no BreadcrumbList item (hence unable to touch the
category fields). -/
def scriptNoBc (s : Option Json) : Bool :=
  match s with
  | none => true
  | some j => (topItems j).all itemNotBc

/-- A well-formed BreadcrumbList JSON-LD object built from `(name, @id)`
pairs. -/
def bcJson (elems : List (String × String)) : Json :=
  .obj [("@type", .str "BreadcrumbList"),
        ("itemListElement", .arr (elems.map (fun e =>
          .obj [("item", .obj [("name", .str e.1), ("@id", .str e.2)])])))]

/-- The name filter of the breadcrumb branches: truthy and not lowercasing
to home/shop/all. -/
def goodCrumbName (n : String) : Bool :=
  !(n = "") && !(strLower n = "home" ∨ strLower n = "shop" ∨ strLower n = "all")

/-! ## colemanfurniture legacy field extractors -/

/-- `data.get('@type') == 'Product' or data.get('@type') == 'ProductGroup'`
(exact string comparison; a list-valued `@type` does not match here). -/
def legacyIsProduct (fields : List (String × Json)) : Bool :=
  optJsonEqStr (jsonGet fields "@type") "Product"
    || optJsonEqStr (jsonGet fields "@type") "ProductGroup"

/-- First script whose `try` body returns, else the trailing `return ''`.
`none` covers `json.loads` failure, a non-dict result (whose `.get` raises
into the bare `except`), a non-matching `@type`, an exception while
processing, and a body that reaches no `return`. -/
def scanScripts {α : Type} (try1 : Option Json → Option α) (dflt : α) :
    List (Option Json) → α
  | [] => dflt
  | s :: rest =>
    match try1 s with
    | some v => v
    | none => scanScripts try1 dflt rest

/-- One script of `extract_price`. -/
def tryPrice (s : Option Json) : Option String :=
  match s with
  | some (.obj fields) =>
    if legacyIsProduct fields then
      match jsonGetD fields "offers" (.obj []) with
      | .obj ofs =>
        match jsonGet ofs "price" with
        | some p => some (pyStr p)
        | none => none
      | _ => none
    else none
  | _ => none

/-- `ProductFetcher.extract_price`. -/
def extract_price (scripts : List (Option Json)) : String :=
  scanScripts tryPrice "" scripts

/-- One script of `extract_sku`: `return data.get('sku', '')`. -/
def trySku (s : Option Json) : Option Json :=
  match s with
  | some (.obj fields) =>
    if legacyIsProduct fields then some (jsonGetD fields "sku" (.str "")) else none
  | _ => none

/-- `ProductFetcher.extract_sku`. -/
def extract_sku (scripts : List (Option Json)) : Json :=
  scanScripts trySku (.str "") scripts

/-- One script of `extract_mpn`. -/
def tryMpn (s : Option Json) : Option Json :=
  match s with
  | some (.obj fields) =>
    if legacyIsProduct fields then some (jsonGetD fields "mpn" (.str "")) else none
  | _ => none

/-- `ProductFetcher.extract_mpn`. -/
def extract_mpn (scripts : List (Option Json)) : Json :=
  scanScripts tryMpn (.str "") scripts

/-- One script of `extract_brand`: a dict brand yields its raw `name`, any
other brand value is `str`-ed. -/
def tryBrand (s : Option Json) : Option Json :=
  match s with
  | some (.obj fields) =>
    if legacyIsProduct fields then
      match jsonGetD fields "brand" (.obj []) with
      | .obj bf => some (jsonGetD bf "name" (.str ""))
      | v => some (.str (pyStr v))
    else none
  | _ => none

/-- `ProductFetcher.extract_brand`. -/
def extract_brand (scripts : List (Option Json)) : Json :=
  scanScripts tryBrand (.str "") scripts

/-- One script of `extract_main_image`. -/
def tryMainImage (s : Option Json) : Option Json :=
  match s with
  | some (.obj fields) =>
    if legacyIsProduct fields then some (jsonGetD fields "image" (.str "")) else none
  | _ => none

/-- `ProductFetcher.extract_main_image`. -/
def extract_main_image (scripts : List (Option Json)) : Json :=
  scanScripts tryMainImage (.str "") scripts

/-- One script of `extract_status`: falls through (no `return`) when the
availability is missing or matches no keyword, or `offers` is not a dict. -/
def tryStatus (s : Option Json) : Option String :=
  match s with
  | some (.obj fields) =>
    if legacyIsProduct fields then
      match jsonGetD fields "offers" (.obj []) with
      | .obj ofs =>
        let availability := strLower (pyStr (jsonGetD ofs "availability" (.str "")))
        if strHas availability "instock" then some "Active"
        else if strHas availability "outofstock" || strHas availability "soldout" then
          some "Out of Stock"
        else if strHas availability "preorder" then some "Active"
        else none
      | _ => none
    else none
  | _ => none

/-- `ProductFetcher.extract_status`. -/
def extract_status (scripts : List (Option Json)) : String :=
  scanScripts tryStatus "" scripts

/-- One script of `extract_group_attr1`: `return data.get('color', '')`. -/
def tryGroupAttr1 (s : Option Json) : Option Json :=
  match s with
  | some (.obj fields) =>
    if legacyIsProduct fields then some (jsonGetD fields "color" (.str "")) else none
  | _ => none

/-- `ProductFetcher.extract_group_attr1` (the `attr_num` argument is
unused). -/
def extract_group_attr1 (scripts : List (Option Json)) : Json :=
  scanScripts tryGroupAttr1 (.str "") scripts

/-- The name-collecting loop of legacy `extract_category`; `none` models an
exception reaching the bare `except`. -/
def collectNames : List Json → Option (List String)
  | [] => some []
  | el :: rest =>
    match el with
    | .obj ef =>
      match jsonGetD ef "item" (.obj []) with
      | .obj itf =>
        let name := jsonGetD itf "name" (.str "")
        let nameRes : Option (List String) :=
          if name.truthy then
            match name with
            | .str s =>
              if strLower s = "home" ∨ strLower s = "shop" ∨ strLower s = "all"
              then some [] else some [s]
            | _ => none
          else some []
        match nameRes with
        | none => none
        | some ns =>
          match collectNames rest with
          | none => none
          | some cats => some (ns ++ cats)
      | _ => none
    | _ => none

/-- One script of `extract_category`: returns only when the script is a
BreadcrumbList and the filtered (and possibly last-dropped) names are
non-empty. -/
def tryCategory (s : Option Json) : Option String :=
  match s with
  | some (.obj fields) =>
    if optJsonEqStr (jsonGet fields "@type") "BreadcrumbList" then
      match iterElements (jsonGetD fields "itemListElement" (.arr [])) with
      | none => none
      | some els =>
        match collectNames els with
        | none => none
        | some cats =>
          let cats2 := if 1 < cats.length then cats.dropLast else cats
          if cats2.isEmpty then none else some (joinSep " > " cats2)
    else none
  | _ => none

/-- `ProductFetcher.extract_category`. -/
def extract_category (scripts : List (Option Json)) : String :=
  scanScripts tryCategory "" scripts

/-- The `@id`-collecting loop of legacy `extract_category_url` (it never
touches `name`, so only non-dict shapes raise). -/
def collectIds : List Json → Option (List Json)
  | [] => some []
  | el :: rest =>
    match el with
    | .obj ef =>
      match jsonGetD ef "item" (.obj []) with
      | .obj itf =>
        let url := jsonGetD itf "@id" (.str "")
        match collectIds rest with
        | none => none
        | some us => some ((if url.truthy then [url] else []) ++ us)
      | _ => none
    | _ => none

/-- One script of `extract_category_url`: `return urls[-2]` when at least
two truthy `@id`s were collected. -/
def tryCategoryUrl (s : Option Json) : Option Json :=
  match s with
  | some (.obj fields) =>
    if optJsonEqStr (jsonGet fields "@type") "BreadcrumbList" then
      match iterElements (jsonGetD fields "itemListElement" (.arr [])) with
      | none => none
      | some els =>
        match collectIds els with
        | none => none
        | some urls =>
          if 2 ≤ urls.length then some ((urls.get? (urls.length - 2)).getD (.str ""))
          else none
    else none
  | _ => none

/-- `ProductFetcher.extract_category_url`. -/
def extract_category_url (scripts : List (Option Json)) : Json :=
  scanScripts tryCategoryUrl (.str "") scripts

/-- A script parsing to a dict whose `@type` is exactly `Product`,
`ProductGroup` or `BreadcrumbList` — the only scripts any legacy extractor
can return a value from. -/
def legacyRelevant (s : Option Json) : Bool :=
  match s with
  | some (.obj fields) =>
    legacyIsProduct fields || optJsonEqStr (jsonGet fields "@type") "BreadcrumbList"
  | _ => false

/-! ## cymax_scraper/parser.py : regex scanners

The handful of regexes in `parse_product` are simple enough to give exact
leftmost-match semantics directly: the search tries every start position
left to right; at a position each pattern is deterministic (`\s*` is
followed by a non-whitespace literal and `[^"]` runs are delimited by the
next quote, so greedy repetition cannot backtrack into a different match). -/

/-- `\s` (ASCII). -/
def isPyWs (c : Char) : Bool := pyWs.contains c

/-- Leftmost-match regex search: try each start position left to right. -/
def regexSearch {α : Type} (tryAt : List Char → Option α) : List Char → Option α
  | [] => tryAt []
  | c :: rest =>
    match tryAt (c :: rest) with
    | some v => some v
    | none => regexSearch tryAt rest

/-- Consume the exact literal `pre`. -/
def dropLit : List Char → List Char → Option (List Char)
  | [], l => some l
  | _ :: _, [] => none
  | p :: ps, c :: cs => if p = c then dropLit ps cs else none

/-- Lazy `.*?` (DOTALL) up to the first `};`: the characters before it. -/
def takeUntilBraceSemi : List Char → Option (List Char)
  | [] => none
  | [_] => none
  | c :: d :: rest =>
    if c = '\x7d' ∧ d = ';' then some []
    else
      match takeUntilBraceSemi (d :: rest) with
      | some body => some (c :: body)
      | none => none

/-- Try `window\.bvDCC\s*=\s*(\{.*?\});` at this position; group 1 is the
blob including its braces. -/
def tryBvDCCAt (l : List Char) : Option String := do
  let r1 ← dropLit "window.bvDCC".data l
  let r2 := dropLeadingP isPyWs r1
  let r3 ← match r2 with
    | '=' :: rest => some rest
    | _ => none
  let r4 := dropLeadingP isPyWs r3
  let r5 ← match r4 with
    | '\x7b' :: rest => some rest
    | _ => none
  let body ← takeUntilBraceSemi r5
  some ⟨'\x7b' :: (body ++ ['\x7d'])⟩

/-- `re.search(r'window\.bvDCC\s*=\s*(\{.*?\});', html, re.DOTALL)`. -/
def cymaxFindBvDCC (html : String) : Option String :=
  regexSearch tryBvDCCAt html.data

/-- Run of `[^"]` characters up to the next `"`; `none` when no closing
quote exists. -/
def takeToQuote : List Char → Option (List Char)
  | [] => none
  | c :: rest =>
    if c = '"' then some []
    else
      match takeToQuote rest with
      | some run => some (c :: run)
      | none => none

/-- The `[^"]` run of `"key"\s*:\s*"([^"]…)"` at this position, before the
length bounds are applied. -/
def keyQuotedRun (key : String) (l : List Char) : Option (List Char) := do
  let r1 ← match l with
    | '"' :: rest => some rest
    | _ => none
  let r2 ← dropLit key.data r1
  let r3 ← match r2 with
    | '"' :: rest => some rest
    | _ => none
  let r4 := dropLeadingP isPyWs r3
  let r5 ← match r4 with
    | ':' :: rest => some rest
    | _ => none
  let r6 := dropLeadingP isPyWs r5
  let r7 ← match r6 with
    | '"' :: rest => some rest
    | _ => none
  takeToQuote r7

/-- Try `"key"\s*:\s*"([^"]{lo,hi})"` at this position (`hi = none` means
`[^"]+` with `lo = 1`).  The run is delimited by the next quote, so the
bounded greedy repetition matches exactly when the run length is within the
bounds. -/
def tryKeyQuotedAt (key : String) (lo : Nat) (hi : Option Nat) (l : List Char) :
    Option String :=
  match keyQuotedRun key l with
  | none => none
  | some run =>
    match hi with
    | some h => if lo ≤ run.length ∧ run.length ≤ h then some ⟨run⟩ else none
    | none => if lo ≤ run.length then some ⟨run⟩ else none

/-- Leftmost `"key"\s*:\s*"([^"]{lo,hi})"` in `blob`. -/
def findKeyQuoted (key : String) (lo : Nat) (hi : Option Nat) (blob : String) :
    Option String :=
  regexSearch (tryKeyQuotedAt key lo hi) blob.data

/-- Try `"manufacturerPartNumbers"\s*:\s*\[\s*"([^"]+)"` at this position. -/
def tryMpnArrAt (l : List Char) : Option String := do
  let r1 ← match l with
    | '"' :: rest => some rest
    | _ => none
  let r2 ← dropLit "manufacturerPartNumbers".data r1
  let r3 ← match r2 with
    | '"' :: rest => some rest
    | _ => none
  let r4 := dropLeadingP isPyWs r3
  let r5 ← match r4 with
    | ':' :: rest => some rest
    | _ => none
  let r6 := dropLeadingP isPyWs r5
  let r7 ← match r6 with
    | '[' :: rest => some rest
    | _ => none
  let r8 := dropLeadingP isPyWs r7
  let r9 ← match r8 with
    | '"' :: rest => some rest
    | _ => none
  let run ← takeToQuote r9
  if 1 ≤ run.length then some ⟨run⟩ else none

/-- `"productName"\s*:\s*"([^"]{10,200})"` in the blob. -/
def bvName (blob : String) : Option String := findKeyQuoted "productName" 10 (some 200) blob

/-- `"productId"\s*:\s*"([^"]+)"` in the blob. -/
def bvProductId (blob : String) : Option String := findKeyQuoted "productId" 1 none blob

/-- `"brandName"\s*:\s*"([^"]+)"` in the blob. -/
def bvBrand (blob : String) : Option String := findKeyQuoted "brandName" 1 none blob

/-- `"productImageURL"\s*:\s*"([^"]+)"` in the blob. -/
def bvImage (blob : String) : Option String := findKeyQuoted "productImageURL" 1 none blob

/-- `"manufacturerPartNumbers"\s*:\s*\[\s*"([^"]+)"` in the blob. -/
def bvMpn (blob : String) : Option String := regexSearch tryMpnArrAt blob.data

def isUpperAlnum (c : Char) : Bool := ('A' ≤ c && c ≤ 'Z') || isAsciiDigit c

/-- Try `/([A-Z0-9]{6,8})\.htm$` at this position: the whole remaining text
must be `/` + 6–8 class characters + `.htm`. -/
def tryUrlIdAt (l : List Char) : Option String :=
  match l with
  | '/' :: rest =>
    let n := rest.length
    if 10 ≤ n ∧ n ≤ 12 ∧ (rest.take (n - 4)).all isUpperAlnum
        ∧ rest.drop (n - 4) = ".htm".data then
      some ⟨rest.take (n - 4)⟩
    else none
  | _ => none

/-- `re.search(r'/([A-Z0-9]{6,8})\.htm$', url)`, group 1. -/
def urlIdSearch (url : String) : Option String := regexSearch tryUrlIdAt url.data

def isMpnChar (c : Char) : Bool := isUpperAlnum c || c == '-'

/-- Try `([A-Z0-9-]{6,20})\.htm$` at this position. -/
def tryUrlMpnAt (l : List Char) : Option String :=
  let n := l.length
  if 10 ≤ n ∧ n ≤ 24 ∧ (l.take (n - 4)).all isMpnChar
      ∧ l.drop (n - 4) = ".htm".data then
    some ⟨l.take (n - 4)⟩
  else none

/-- `re.search(r'([A-Z0-9-]{6,20})\.htm$', url)`, group 1. -/
def urlMpnSearch (url : String) : Option String := regexSearch tryUrlMpnAt url.data

/-- The color alternation of `parse_product` (matched with `re.I`). -/
def colorWords : List String :=
  ["Gray", "Beige", "White", "Black", "Brown", "Espresso", "Green", "Gold"]

/-- Case-insensitive literal at this position, returning the text as it
appears in the input (the group preserves the original case). -/
def tryWordAt (w : String) (l : List Char) : Option String :=
  if (l.take w.length).map lowerChar = w.data.map lowerChar then
    some ⟨l.take w.length⟩
  else none

/-- First alternative that matches at this position (the words share no
prefix relation, so order cannot change the result). -/
def tryWordsAt : List String → List Char → Option String
  | [], _ => none
  | w :: ws, l =>
    match tryWordAt w l with
    | some v => some v
    | none => tryWordsAt ws l

/-- `re.search(r'(Gray|Beige|White|Black|Brown|Espresso|Green|Gold)', url,
re.I)`, group 1. -/
def colorSearch (url : String) : Option String :=
  regexSearch (tryWordsAt colorWords) url.data

/-- Try `(\d{2})\s*["\']` at this position. -/
def trySizeAt (l : List Char) : Option String :=
  match l with
  | c1 :: c2 :: rest =>
    if isAsciiDigit c1 ∧ isAsciiDigit c2 then
      match dropLeadingP isPyWs rest with
      | q :: _ => if q = '"' ∨ q = '\x27' then some ⟨[c1, c2]⟩ else none
      | [] => none
    else none
  | _ => none

/-- `re.search(r'(\d{2})\s*["\']', text_content)`, group 1. -/
def sizeSearch (text : String) : Option String := regexSearch trySizeAt text.data

/-! ## cymax_scraper/parser.py : parse_product -/

/-- An HTML element as seen through BeautifulSoup: its
`get_text(strip=True)` and its attributes. -/
structure Elem where
  text : String
  attrs : List (String × String)

/-- `elem.get(key)` (bs4 attributes are unique per tag). -/
def Elem.getA (e : Elem) (k : String) : Option String :=
  (e.attrs.find? (fun kv => kv.1 == k)).map Prod.snd

/-- A fetched product page as `parse_product` sees it: the raw HTML (used by
the regexes), the BeautifulSoup query oracles (`select_one`, the
`ol.breadcrumb li a` anchors), and `soup.get_text()`. -/
structure CymaxPage where
  html : String
  selectOne : String → Option Elem
  breadcrumbAnchors : List Elem
  textContent : String

/-- The `for selector in [...]` fallback: the element of the first selector
that hits. -/
def selectChain (page : CymaxPage) : List String → Option Elem
  | [] => none
  | s :: rest =>
    match page.selectOne s with
    | some e => some e
    | none => selectChain page rest

def cymaxNameSelectors : List String :=
  ["h1", ".product-title", "[itemprop=\"name\"]", ".pdp-title"]

def cymaxBrandSelectors : List String :=
  [".brand", ".manufacturer", "[itemprop=\"brand\"]"]

def cymaxPriceSelectors : List String :=
  [".price", "[itemprop=\"price\"]", ".product-price"]

def cymaxImageSelectors : List String :=
  ["meta[property=\"og:image\"]", ".product-image img"]

/-- Name fallback value: `elem.get_text(strip=True)` of the first hit, else
the prior (empty) value. -/
def selNameVal (page : CymaxPage) : String :=
  match selectChain page cymaxNameSelectors with
  | some e => e.text
  | none => ""

/-- Brand fallback value. -/
def selBrandVal (page : CymaxPage) : String :=
  match selectChain page cymaxBrandSelectors with
  | some e => e.text
  | none => ""

/-- Price fallback value: `elem.get_text(strip=True).strip()`. -/
def selPriceVal (page : CymaxPage) : String :=
  match selectChain page cymaxPriceSelectors with
  | some e => pyStrStrip e.text
  | none => ""

/-- Python `a or b` where `a` is an optional attribute value. -/
def pyOr (a : Option String) (b : String) : String :=
  match a with
  | some s => if s = "" then b else s
  | none => b

/-- Image fallback value: `elem.get('content') or elem.get('src') or
elem.get('data-src') or ''`. -/
def selImageVal (page : CymaxPage) : String :=
  match selectChain page cymaxImageSelectors with
  | some e => pyOr (e.getA "content") (pyOr (e.getA "src") (pyOr (e.getA "data-src") ""))
  | none => ""

/-- The row dict returned by `parse_product` (string values; `Date Scrapped`
is the `now` argument). -/
structure CymaxRow where
  refProductUrl : String
  refProductId : String
  refVariantId : String
  refCategory : String
  refCategoryUrl : String
  refBrandName : String
  refProductName : String
  refSku : String
  refMpn : String
  refGtin : String
  refPrice : String
  refMainImage : String
  refQuantity : String
  refGroupAttr1 : String
  refGroupAttr2 : String
  refStatus : String
  dateScrapped : String
deriving Repr, DecidableEq

/-- `cymax_scraper/parser.py` `parse_product(html, url)`; `now` stands for
`datetime.now().strftime('%Y-%m-%d %H:%M:%S')`. -/
def parse_product (page : CymaxPage) (url : String) (now : String) : CymaxRow :=
  let jsBlob := cymaxFindBvDCC page.html
  let product_id0 :=
    match jsBlob with
    | some blob => (bvProductId blob).getD ""
    | none => ""
  let variant_id0 := product_id0
  let product_name0 :=
    match jsBlob with
    | some blob => (bvName blob).getD ""
    | none => ""
  let brand0 :=
    match jsBlob with
    | some blob => (bvBrand blob).getD ""
    | none => ""
  let mpnSku : String × String :=
    match jsBlob with
    | some blob =>
      match bvMpn blob with
      | some m => (m, m)
      | none => ("", "")
    | none => ("", "")
  let image0 :=
    match jsBlob with
    | some blob => (bvImage blob).getD ""
    | none => ""
  let pidVid : String × String :=
    match urlIdSearch url with
    | some g => if product_id0 = "" then (g, g) else (product_id0, variant_id0)
    | none => (product_id0, variant_id0)
  let mpnSku2 : String × String :=
    match urlMpnSearch url with
    | some g => (g, if mpnSku.2 = "" then g else mpnSku.2)
    | none => mpnSku
  let crumbs := page.breadcrumbAnchors.filterMap (fun li =>
      let t := li.text
      let href := (li.getA "href").getD ""
      if t ≠ "" ∧ href ≠ "" ∧ href ≠ "/" then
        some (t,
          if href.startsWith "http" then href
          else if href.startsWith "/" then "https://www.cymax.com" ++ href
          else "https://www.cymax.com/" ++ href)
      else none)
  let categories := crumbs.map Prod.fst
  let category_urls := crumbs.map Prod.snd
  let main_category := if categories.isEmpty then "" else joinSep " > " categories
  let category_url := (category_urls.getLast?).getD ""
  let product_name := if product_name0 = "" then selNameVal page else product_name0
  let brand_name := if brand0 = "" then selBrandVal page else brand0
  let price := selPriceVal page
  let main_image := if image0 = "" then selImageVal page else image0
  let stockText := strLower page.textContent
  let quantity :=
    if strHas stockText "out of stock" ∨ strHas stockText "sold out"
        ∨ strHas stockText "unavailable" then "Out of Stock" else "In Stock"
  let group_attr1 := (colorSearch url).getD ""
  let group_attr2 := (sizeSearch page.textContent).getD ""
  let status := if price ≠ "" ∨ product_name ≠ "" then "Active" else "Inactive"
  { refProductUrl := url, refProductId := pidVid.1, refVariantId := pidVid.2,
    refCategory := main_category, refCategoryUrl := category_url,
    refBrandName := brand_name, refProductName := product_name,
    refSku := mpnSku2.2, refMpn := mpnSku2.1, refGtin := "", refPrice := price,
    refMainImage := main_image, refQuantity := quantity,
    refGroupAttr1 := group_attr1, refGroupAttr2 := group_attr2,
    refStatus := status, dateScrapped := now }

/-- A page with no data sources at all. -/
def emptyCymaxPage : CymaxPage :=
  { html := "", selectOne := fun _ => none, breadcrumbAnchors := [], textContent := "" }

/-- A concrete page whose bvDCC blob provides a name, brand and image. -/
def cymaxFullPage : CymaxPage :=
  { html := "window.bvDCC = \x7b\"productName\": \"Amazing Walnut Desk\", \"brandName\": \"Acme\", \"productImageURL\": \"http://img/x.jpg\"\x7d;",
    selectOne := fun _ => none, breadcrumbAnchors := [], textContent := "" }

/-- A concrete page with an empty bvDCC blob. -/
def cymaxBlankBlobPage : CymaxPage :=
  { html := "window.bvDCC = \x7b\x7d;",
    selectOne := fun _ => none, breadcrumbAnchors := [], textContent := "" }

/-- Concrete scripts none of which parses to a relevant JSON-LD object. -/
def c1Scripts : List (Option Json) :=
  [none, some (.arr []), some (.obj [("@type", Json.str "Thing")])]

end Scraper

/-! # Theorems -/

namespace Scraper

/-- **C3.** `is_product_url url` is `true` iff `url` is non-empty, has length
at least 50, its lowercase form ends with `.html` or `.htm` and contains
`cymax.com`, and contains none of the denylist words; in particular every URL
shorter than 50 characters is rejected. -/
theorem cymax_is_product_url_iff (url : String) :
    is_product_url url = true ↔
      (url ≠ "" ∧ 50 ≤ url.length
        ∧ ((strLower url).endsWith ".html" = true ∨ (strLower url).endsWith ".htm" = true)
        ∧ strHas (strLower url) "cymax.com" = true
        ∧ ∀ w ∈ cymaxSkipWords, strHas (strLower url) w = false) := by
  unfold is_product_url
  by_cases h : url = "" ∨ url.length < 50
  · rw [if_pos h]
    constructor
    · intro hf; exact absurd hf (by simp)
    · rintro ⟨hne, hlen, -⟩
      rcases h with h | h
      · exact absurd h hne
      · exact absurd hlen (by omega)
  · rw [if_neg h]
    push_neg at h
    obtain ⟨hne, hlen⟩ := h
    simp only [Bool.and_eq_true, Bool.or_eq_true, Bool.not_eq_true']
    constructor
    · rintro ⟨⟨hend, hcy⟩, hskip⟩
      refine ⟨hne, by omega, hend, hcy, ?_⟩
      intro w hw
      rcases hany : strHas (strLower url) w with _ | _
      · rfl
      · exact absurd (List.any_eq_true.mpr ⟨w, hw, hany⟩) (by simp [hskip])
    · rintro ⟨-, -, hend, hcy, hskip⟩
      refine ⟨⟨hend, hcy⟩, ?_⟩
      rcases hany : cymaxSkipWords.any (fun w => strHas (strLower url) w) with _ | _
      · rfl
      · obtain ⟨w, hw, hws⟩ := List.any_eq_true.mp hany
        exact absurd hws (by simp [hskip w hw])

/-- **C2.** `_is_plp_url` returns `true` iff the URL's path stripped of
leading/trailing `/` is empty or still contains a `/`; equivalently it
returns `false` (product-detail page) exactly when that stripped path is a
single non-empty segment without `/`. -/
theorem coleman_is_plp_url_iff (url : String) :
    (is_plp_url url = true ↔
      (pyStripChars (urlparsePath url) ['/'] = ""
        ∨ strHas (pyStripChars (urlparsePath url) ['/']) "/" = true))
    ∧ (is_plp_url url = false ↔
      (pyStripChars (urlparsePath url) ['/'] ≠ ""
        ∧ strHas (pyStripChars (urlparsePath url) ['/']) "/" = false)) := by
  unfold is_plp_url
  by_cases h : pyStripChars (urlparsePath url) ['/'] = ""
  · simp [h]
  · simp [h]

/-! ### C8 : sitemap chunking -/

/-- The first `k` auto-sized chunks concatenate to a prefix of the list. -/
theorem chunkJoinTake (l : List String) (total : Nat) :
    ∀ k, k ≤ total - 1 →
      ((List.range k).map (chunk_slice l total)).flatten
        = l.take (k * (l.length / total)) := by
  intro k
  induction k with
  | zero => intro _; simp
  | succ k ih =>
    intro hk
    have hk' : k ≤ total - 1 := Nat.le_of_succ_le hk
    rw [List.range_succ, List.map_append, List.flatten_append, ih hk']
    have hne : k ≠ total - 1 := by omega
    simp only [List.map_cons, List.map_nil, List.flatten_cons, List.flatten_nil,
      List.append_nil, chunk_slice]
    rw [if_neg hne, Nat.succ_mul, List.take_add]

/-- **C8.** `get_sitemap_chunks(all, offset, limit)` is `all[offset:]` when
`limit = 0` and `all[offset:offset+limit]` otherwise; and in chunk mode with
auto chunk size `len // total`, chunk `i < total - 1` is the slice
`[i*size, (i+1)*size)`, the last chunk takes the rest, and the chunks
concatenate (pairwise disjoint index ranges) to the entire list. -/
theorem sitemap_chunking_spec (l : List String) (offset limit total : Nat)
    (hlim : limit ≠ 0) (htot : 1 < total) :
    get_sitemap_chunks l offset 0 = l.drop offset
    ∧ get_sitemap_chunks l offset limit = (l.drop offset).take limit
    ∧ (∀ i, i < total - 1 →
        chunk_slice l total i =
          (l.drop (i * (l.length / total))).take (l.length / total))
    ∧ chunk_slice l total (total - 1) = l.drop ((total - 1) * (l.length / total))
    ∧ ((List.range total).map (chunk_slice l total)).flatten = l := by
  refine ⟨by simp [get_sitemap_chunks], by simp [get_sitemap_chunks, hlim], ?_, ?_, ?_⟩
  · intro i hi
    simp only [chunk_slice]
    rw [if_neg (by omega)]
  · simp only [chunk_slice]
    simp
  · obtain ⟨t, rfl⟩ : ∃ t, total = t + 1 := ⟨total - 1, by omega⟩
    rw [List.range_succ, List.map_append, List.flatten_append,
      chunkJoinTake l (t + 1) t (by omega)]
    simp only [List.map_cons, List.map_nil, List.flatten_cons, List.flatten_nil,
      List.append_nil, chunk_slice]
    rw [if_pos (by omega)]
    exact List.take_append_drop _ l

/-- Witness for C8 at a concrete list, offset, limit and chunk count. -/
theorem sitemap_chunking_spec_witness :
    (1 : Nat) ≠ 0 ∧ (1 : Nat) < 2
    ∧ ((List.range 2).map (chunk_slice ["a", "b", "c"] 2)).flatten = ["a", "b", "c"] :=
  ⟨by decide, by decide,
    (sitemap_chunking_spec ["a", "b", "c"] 0 1 2 (by decide) (by decide)).2.2.2.2⟩

/-! ### C10 : get_product_urls invariants -/

/-- The inner `<loc>` loop preserves: no duplicates and every accumulated URL
satisfies `is_product_url`. -/
theorem addLocs_invariant (limit : Nat) (locs : List String) :
    ∀ acc : List String, acc.Nodup → (∀ u ∈ acc, is_product_url u = true) →
      (addLocs limit acc locs).Nodup
        ∧ ∀ u ∈ addLocs limit acc locs, is_product_url u = true := by
  induction locs with
  | nil => intro acc h1 h2; exact ⟨h1, h2⟩
  | cons loc rest ih =>
    intro acc h1 h2
    simp only [addLocs]
    by_cases hcond : is_product_url (pyStrStrip loc) = true ∧ acc.length < limit
    · rw [if_pos hcond]
      by_cases hmem : pyStrStrip loc ∈ acc
      · rw [if_pos hmem]; exact ih acc h1 h2
      · rw [if_neg hmem]
        apply ih
        · rw [List.nodup_append]
          refine ⟨h1, List.nodup_singleton _, ?_⟩
          intro a ha hb
          rw [List.mem_singleton] at hb
          subst hb
          exact hmem ha
        · intro u hu
          rcases List.mem_append.mp hu with h | h
          · exact h2 u h
          · rw [List.mem_singleton] at h; subst h; exact hcond.1
    · rw [if_neg hcond]; exact ih acc h1 h2

/-- The outer sitemap loop preserves the same invariant. -/
theorem procSitemaps_invariant (limit : Nat)
    (fetch : String → Option (Nat × List String)) (sms : List String) :
    ∀ acc : List String, acc.Nodup → (∀ u ∈ acc, is_product_url u = true) →
      (procSitemaps limit fetch acc sms).Nodup
        ∧ ∀ u ∈ procSitemaps limit fetch acc sms, is_product_url u = true := by
  induction sms with
  | nil => intro acc h1 h2; exact ⟨h1, h2⟩
  | cons sm rest ih =>
    intro acc h1 h2
    simp only [procSitemaps]
    rcases hf : fetch sm with _ | ⟨n, locs⟩
    · simp only [hf]
      exact ih acc h1 h2
    · simp only [hf]
      by_cases hn : n > 5000
      · rw [if_pos hn]
        obtain ⟨g1, g2⟩ := addLocs_invariant limit locs acc h1 h2
        exact ih _ g1 g2
      · rw [if_neg hn]; exact ih acc h1 h2

/-- **C10.** For every fetch oracle, `get_product_urls(limit, offset,
max_sitemaps)` returns at most `limit` URLs, without duplicates, and every
returned URL satisfies `is_product_url`. -/
theorem cymax_get_product_urls_spec (limit offset max_sitemaps : Nat)
    (sitemapUrls : List String) (fetch : String → Option (Nat × List String)) :
    (get_product_urls limit offset max_sitemaps sitemapUrls fetch).length ≤ limit
    ∧ (get_product_urls limit offset max_sitemaps sitemapUrls fetch).Nodup
    ∧ ∀ u ∈ get_product_urls limit offset max_sitemaps sitemapUrls fetch,
        is_product_url u = true := by
  simp only [get_product_urls]
  obtain ⟨h1, h2⟩ := procSitemaps_invariant limit fetch
    (if max_sitemaps > 0
      then (if offset > 0 then sitemapUrls.drop offset else sitemapUrls).take max_sitemaps
      else (if offset > 0 then sitemapUrls.drop offset else sitemapUrls))
    [] List.nodup_nil (by simp)
  refine ⟨?_, ?_, ?_⟩
  · exact List.length_take_le _ _
  · exact List.Nodup.sublist (List.take_sublist _ _) h1
  · intro u hu
    exact h2 u (List.Sublist.mem hu (List.take_sublist _ _))

/-! ### C7 : Fetcher.fetch retry/backoff -/

/-- The fetch loop makes at most one attempt per remaining attempt number. -/
theorem fetchLoop_attempts_le (minSize retries : Nat) (oracle : Nat → AttemptResult) :
    ∀ ks : List Nat, (fetchLoop minSize retries oracle ks).attempts ≤ ks.length := by
  intro ks
  induction ks with
  | nil => simp [fetchLoop]
  | cons k rest ih =>
    rcases hs : fetchStep minSize (oracle k) with r | _ | _
    · have hstep : fetchLoop minSize retries oracle (k :: rest)
          = { result := r, attempts := 1, waits := [] } := by
        simp [fetchLoop, hs]
      rw [hstep]
      simp only [List.length_cons]
      omega
    · have hstep : fetchLoop minSize retries oracle (k :: rest)
          = { result := (fetchLoop minSize retries oracle rest).result,
              attempts := (fetchLoop minSize retries oracle rest).attempts + 1,
              waits := (fetchLoop minSize retries oracle rest).waits } := by
        simp [fetchLoop, hs]
      rw [hstep]
      simpa using Nat.succ_le_succ ih
    · have hstep : fetchLoop minSize retries oracle (k :: rest)
          = { result := (fetchLoop minSize retries oracle rest).result,
              attempts := (fetchLoop minSize retries oracle rest).attempts + 1,
              waits := (if k < retries then [2 ^ k] else [])
                ++ (fetchLoop minSize retries oracle rest).waits } := by
        simp [fetchLoop, hs]
      rw [hstep]
      simpa using Nat.succ_le_succ ih

/-- A failing attempt is either the blocked branch (continue, no sleep) or
one reaching the backoff block. -/
theorem attemptFails_step (minSize : Nat) (r : AttemptResult)
    (h : attemptFails minSize r = true) :
    (attemptBlocked r = true ∧ fetchStep minSize r = .blockedSkip)
    ∨ (attemptBlocked r = false ∧ fetchStep minSize r = .failSleep) := by
  rcases r with _ | html
  · right; exact ⟨rfl, rfl⟩
  · simp only [attemptFails, Bool.or_eq_true, Bool.and_eq_true,
      Bool.not_eq_true'] at h
    by_cases hb : isBlocked html = true
    · left
      refine ⟨hb, ?_⟩
      simp [fetchStep, hb]
    · right
      rcases h with h | ⟨hl, hsmall⟩
      · exact absurd h hb
      · refine ⟨by simpa [attemptBlocked] using hb, ?_⟩
        simp [fetchStep, hb, hl, of_decide_eq_false hsmall]

/-- When every remaining attempt fails, the loop exhausts all attempts,
returns `none`, and sleeps `2 ^ k` after exactly the failed attempts
`k < retries` that were not blocked. -/
theorem fetchLoop_all_fail (minSize retries : Nat) (oracle : Nat → AttemptResult) :
    ∀ ks : List Nat, (∀ k ∈ ks, attemptFails minSize (oracle k) = true) →
      fetchLoop minSize retries oracle ks =
        { result := none, attempts := ks.length,
          waits := (ks.filter (fun k =>
              !attemptBlocked (oracle k) && decide (k < retries))).map (2 ^ ·) } := by
  intro ks
  induction ks with
  | nil => intro _; simp [fetchLoop]
  | cons k rest ih =>
    intro hall
    have hk := hall k (List.mem_cons_self k rest)
    have hrest : ∀ k' ∈ rest, attemptFails minSize (oracle k') = true :=
      fun k' hk' => hall k' (List.mem_cons_of_mem k hk')
    rcases attemptFails_step minSize (oracle k) hk with ⟨hb, hs⟩ | ⟨hb, hs⟩
    · have hstep : fetchLoop minSize retries oracle (k :: rest)
          = { result := (fetchLoop minSize retries oracle rest).result,
              attempts := (fetchLoop minSize retries oracle rest).attempts + 1,
              waits := (fetchLoop minSize retries oracle rest).waits } := by
        simp [fetchLoop, hs]
      rw [hstep, ih hrest]
      simp [List.filter_cons, hb]
    · have hstep : fetchLoop minSize retries oracle (k :: rest)
          = { result := (fetchLoop minSize retries oracle rest).result,
              attempts := (fetchLoop minSize retries oracle rest).attempts + 1,
              waits := (if k < retries then [2 ^ k] else [])
                ++ (fetchLoop minSize retries oracle rest).waits } := by
        simp [fetchLoop, hs]
      rw [hstep, ih hrest]
      by_cases hlt : k < retries
      · simp [List.filter_cons, hb, hlt]
      · simp [List.filter_cons, hb, hlt]

/-- When the first attempts fail and attempt `j` yields an unblocked listing
page, the loop stops there returning `None`. -/
theorem fetchLoop_listing (minSize retries : Nat) (oracle : Nat → AttemptResult)
    (j : Nat) (html : String) (hj : oracle j = .page html)
    (hnb : isBlocked html = false) (hl : isListingPage html = true) :
    ∀ ks1 ks2 : List Nat, (∀ k ∈ ks1, attemptFails minSize (oracle k) = true) →
      fetchLoop minSize retries oracle (ks1 ++ j :: ks2) =
        { result := none, attempts := ks1.length + 1,
          waits := (ks1.filter (fun k =>
              !attemptBlocked (oracle k) && decide (k < retries))).map (2 ^ ·) } := by
  intro ks1
  induction ks1 with
  | nil =>
    intro ks2 _
    have hs : fetchStep minSize (oracle j) = .done none := by
      simp [fetchStep, hj, hnb, hl]
    have hstep : fetchLoop minSize retries oracle ([] ++ j :: ks2)
        = { result := none, attempts := 1, waits := [] } := by
      simp [fetchLoop, hs]
    rw [hstep]
    simp
  | cons k rest ih =>
    intro ks2 hall
    have hk := hall k (List.mem_cons_self k rest)
    have hrest : ∀ k' ∈ rest, attemptFails minSize (oracle k') = true :=
      fun k' hk' => hall k' (List.mem_cons_of_mem k hk')
    rcases attemptFails_step minSize (oracle k) hk with ⟨hb, hs⟩ | ⟨hb, hs⟩
    · have hstep : fetchLoop minSize retries oracle ((k :: rest) ++ j :: ks2)
          = { result := (fetchLoop minSize retries oracle (rest ++ j :: ks2)).result,
              attempts := (fetchLoop minSize retries oracle (rest ++ j :: ks2)).attempts + 1,
              waits := (fetchLoop minSize retries oracle (rest ++ j :: ks2)).waits } := by
        simp [fetchLoop, hs]
      rw [hstep, ih ks2 hrest]
      simp [List.filter_cons, hb]
    · have hstep : fetchLoop minSize retries oracle ((k :: rest) ++ j :: ks2)
          = { result := (fetchLoop minSize retries oracle (rest ++ j :: ks2)).result,
              attempts := (fetchLoop minSize retries oracle (rest ++ j :: ks2)).attempts + 1,
              waits := (if k < retries then [2 ^ k] else [])
                ++ (fetchLoop minSize retries oracle (rest ++ j :: ks2)).waits } := by
        simp [fetchLoop, hs]
      rw [hstep, ih ks2 hrest]
      by_cases hlt : k < retries
      · simp [List.filter_cons, hb, hlt]
      · simp [List.filter_cons, hb, hlt]

/-- Attempt numbers below `retries` are exactly all but the last. -/
theorem range'_filter_lt (n : Nat) :
    (List.range' 1 n).filter (fun k => decide (k < n)) = List.range' 1 (n - 1) := by
  cases n with
  | zero => simp
  | succ m =>
    rw [List.range'_concat, List.filter_append]
    have h1 : (List.range' 1 m).filter (fun k => decide (k < m + 1))
        = List.range' 1 m := by
      rw [List.filter_eq_self]
      intro k hk
      rw [List.mem_range'_1] at hk
      simp only [decide_eq_true_eq]
      omega
    have h2 : ([1 + 1 * m].filter (fun k => decide (k < m + 1))) = [] := by
      simp only [List.filter_cons, List.filter_nil, decide_eq_true_eq]
      rw [if_neg (by omega)]
    rw [h1, h2, List.append_nil, Nat.add_sub_cancel]

/-- Counterexample to C7 as stated: the claim promises a `2 ^ k` wait after
*every* failed attempt `k < retries`, but the blocked-page branch continues
without sleeping.  With two retries whose first attempt is blocked and whose
second raises, every attempt fails, yet the trace performs no wait at all
(the claim predicts a wait of `2` seconds after attempt 1). -/
theorem cymax_fetch_blocked_no_backoff :
    isBlocked cymaxBlockedHtml = true
    ∧ attemptFails 10 (cymaxBlockedOracle 1) = true
    ∧ attemptFails 10 (cymaxBlockedOracle 2) = true
    ∧ cymax_fetch 10 2 cymaxBlockedOracle
        = { result := none, attempts := 2, waits := [] }
    ∧ (cymax_fetch 10 2 cymaxBlockedOracle).waits ≠ [2 ^ 1] := by
  exact ⟨by decide, by decide, by decide, by decide, by decide⟩

/-- **C7 (amended).** `Fetcher.fetch` makes at most `retries` attempts; when
every attempt fails (exception, blocked page, or HTML not above the
configured minimum size) it returns `None` after exactly `retries` attempts,
sleeping `2 ^ k` seconds after exactly the failed attempts `k < retries`
that reached the backoff block — a blocked page's `continue` skips the
sleep, so when no attempt is blocked the waits are the full `2, 4, 8, …`
sequence; and when attempt `j` yields an unblocked listing page it returns
`None` immediately after `j` attempts. -/
theorem cymax_fetch_spec (minSize retries j : Nat)
    (oracle oracle2 : Nat → AttemptResult) (html : String)
    (hall : ∀ k, 1 ≤ k → k ≤ retries → attemptFails minSize (oracle k) = true)
    (hj1 : 1 ≤ j) (hj2 : j ≤ retries)
    (hfail2 : ∀ k, 1 ≤ k → k < j → attemptFails minSize (oracle2 k) = true)
    (hjp : oracle2 j = .page html) (hnb : isBlocked html = false)
    (hlst : isListingPage html = true) :
    (∀ o : Nat → AttemptResult, (cymax_fetch minSize retries o).attempts ≤ retries)
    ∧ cymax_fetch minSize retries oracle =
        { result := none, attempts := retries,
          waits := ((List.range' 1 retries).filter (fun k =>
              !attemptBlocked (oracle k) && decide (k < retries))).map (2 ^ ·) }
    ∧ ((∀ k, 1 ≤ k → k ≤ retries → attemptBlocked (oracle k) = false) →
        cymax_fetch minSize retries oracle =
          { result := none, attempts := retries,
            waits := (List.range' 1 (retries - 1)).map (2 ^ ·) })
    ∧ (cymax_fetch minSize retries oracle2).result = none
    ∧ (cymax_fetch minSize retries oracle2).attempts = j := by
  have hsplit : List.range' 1 retries
      = List.range' 1 (j - 1) ++ j :: List.range' (j + 1) (retries - j) := by
    have h1 : (retries - j + 1) + (j - 1) = retries := by omega
    have h2 : 1 + 1 * (j - 1) = j := by omega
    calc List.range' 1 retries = List.range' 1 ((retries - j + 1) + (j - 1)) := by rw [h1]
      _ = List.range' 1 (j - 1) ++ List.range' (1 + 1 * (j - 1)) (retries - j + 1) :=
          (List.range'_append 1 (j - 1) (retries - j + 1) 1).symm
      _ = List.range' 1 (j - 1) ++ List.range' j (retries - j + 1) := by rw [h2]
      _ = List.range' 1 (j - 1) ++ (j :: List.range' (j + 1) (retries - j)) := by
          rw [List.range'_succ]
  have hallmem : ∀ k ∈ List.range' 1 retries, attemptFails minSize (oracle k) = true := by
    intro k hk
    rw [List.mem_range'_1] at hk
    exact hall k hk.1 (by omega)
  have hlst2 := fetchLoop_listing minSize retries oracle2 j html hjp hnb hlst
    (List.range' 1 (j - 1)) (List.range' (j + 1) (retries - j))
    (by
      intro k hk
      rw [List.mem_range'_1] at hk
      exact hfail2 k hk.1 (by omega))
  refine ⟨?_, ?_, ?_, ?_, ?_⟩
  · intro o
    have := fetchLoop_attempts_le minSize retries o (List.range' 1 retries)
    simpa [cymax_fetch, List.length_range'] using this
  · rw [cymax_fetch, fetchLoop_all_fail minSize retries oracle _ hallmem,
      List.length_range']
  · intro hnoblock
    rw [cymax_fetch, fetchLoop_all_fail minSize retries oracle _ hallmem,
      List.length_range']
    have hfe : (List.range' 1 retries).filter (fun k =>
          !attemptBlocked (oracle k) && decide (k < retries))
        = (List.range' 1 retries).filter (fun k => decide (k < retries)) := by
      apply List.filter_congr
      intro k hk
      rw [List.mem_range'_1] at hk
      rw [hnoblock k hk.1 (by omega)]
      simp
    rw [hfe, range'_filter_lt]
  · rw [cymax_fetch, hsplit, hlst2]
  · rw [cymax_fetch, hsplit, hlst2]
    simp [List.length_range']
    omega

/-- Witness for C7 (amended): three retries that all raise exhaust the
budget with backoff waits 2 and 4; a listing page on attempt 2 stops after
2 attempts. -/
theorem cymax_fetch_spec_witness :
    isListingPage cymaxListingHtml = true
    ∧ isBlocked cymaxListingHtml = false
    ∧ cymax_fetch 10 3 cymaxFailOracle = { result := none, attempts := 3, waits := [2, 4] }
    ∧ (cymax_fetch 10 3 cymaxListOracle).result = none
    ∧ (cymax_fetch 10 3 cymaxListOracle).attempts = 2 := by
  have h := cymax_fetch_spec 10 3 2 cymaxFailOracle cymaxListOracle cymaxListingHtml
    (fun _ _ _ => rfl) (by decide) (by decide)
    (fun k h1 h2 => by
      have hk : k = 1 := by omega
      subst hk
      rfl)
    rfl (by decide) (by decide)
  refine ⟨by decide, by decide, ?_, h.2.2.2.1, h.2.2.2.2⟩
  rw [h.2.2.1 (fun _ _ _ => rfl)]
  decide

/-! ### C6 : bundle sub-product extraction -/

/-- Invariant of the bundle loop: at most one yield per item, the parent URL
is never yielded, no URL is yielded twice or when already processed, and
every yielded or previously processed URL ends up in the updated set. -/
theorem bundleLoop_invariant (respUrl : String) :
    ∀ (items : List Json) (processed : List String),
      (bundleLoop respUrl items processed).1.length ≤ items.length
      ∧ respUrl ∉ (bundleLoop respUrl items processed).1
      ∧ (bundleLoop respUrl items processed).1.Nodup
      ∧ (∀ u ∈ (bundleLoop respUrl items processed).1, u ∉ processed)
      ∧ (∀ u ∈ (bundleLoop respUrl items processed).1,
          u ∈ (bundleLoop respUrl items processed).2)
      ∧ (∀ u ∈ processed, u ∈ (bundleLoop respUrl items processed).2) := by
  intro items
  induction items with
  | nil =>
    intro processed
    simp [bundleLoop]
  | cons it rest ih =>
    intro processed
    rcases hu : bundleItemUrl it with _ | s2
    · have hstep : bundleLoop respUrl (it :: rest) processed
          = bundleLoop respUrl rest processed := by
        simp [bundleLoop, hu]
      rw [hstep]
      obtain ⟨a, b, c, d, e, f⟩ := ih processed
      exact ⟨Nat.le_succ_of_le a, b, c, d, e, f⟩
    · by_cases hskip : s2 = respUrl ∨ s2 ∈ processed
      · have hstep : bundleLoop respUrl (it :: rest) processed
            = bundleLoop respUrl rest processed := by
          simp only [bundleLoop, hu]
          rw [if_pos hskip]
        rw [hstep]
        obtain ⟨a, b, c, d, e, f⟩ := ih processed
        exact ⟨Nat.le_succ_of_le a, b, c, d, e, f⟩
      · have hstep : bundleLoop respUrl (it :: rest) processed
            = (s2 :: (bundleLoop respUrl rest (s2 :: processed)).1,
               (bundleLoop respUrl rest (s2 :: processed)).2) := by
          simp only [bundleLoop, hu]
          rw [if_neg hskip]
        rw [hstep]
        push_neg at hskip
        obtain ⟨hne, hnp⟩ := hskip
        obtain ⟨a, b, c, d, e, f⟩ := ih (s2 :: processed)
        refine ⟨by simp only [List.length_cons]; exact Nat.succ_le_succ a, ?_, ?_, ?_, ?_, ?_⟩
        · intro hmem
          rcases List.mem_cons.mp hmem with h | h
          · exact hne h.symm
          · exact b h
        · refine List.nodup_cons.mpr ⟨?_, c⟩
          intro hmem
          exact d s2 hmem (List.mem_cons_self s2 processed)
        · intro u hu2
          rcases List.mem_cons.mp hu2 with h | h
          · subst h; exact hnp
          · intro hup
            exact d u h (List.mem_cons_of_mem s2 hup)
        · intro u hu2
          rcases List.mem_cons.mp hu2 with h | h
          · exact f u (by rw [h]; exact List.mem_cons_self s2 processed)
          · exact e u h
        · intro u hup
          exact f u (List.mem_cons_of_mem s2 hup)

/-- **C6.** `extract_bundle_products` yields at most 5 sub-product requests
per page, never yields the parent response's own URL, never yields a URL
already in `_processed_bundle_urls` nor the same URL twice, and records every
yielded URL in the updated set. -/
theorem coleman_extract_bundle_products_spec (hypernova : Option Json)
    (respUrl : String) (processed : List String) :
    (extract_bundle_products hypernova respUrl processed).1.length ≤ 5
    ∧ respUrl ∉ (extract_bundle_products hypernova respUrl processed).1
    ∧ (extract_bundle_products hypernova respUrl processed).1.Nodup
    ∧ (∀ u ∈ (extract_bundle_products hypernova respUrl processed).1, u ∉ processed)
    ∧ (∀ u ∈ (extract_bundle_products hypernova respUrl processed).1,
        u ∈ (extract_bundle_products hypernova respUrl processed).2) := by
  rcases hypernova with _ | j
  · simp [extract_bundle_products]
  · rcases hsi : simpleItemsOf j with _ | items
    · simp [extract_bundle_products, hsi]
    · have hstep : extract_bundle_products (some j) respUrl processed
          = bundleLoop respUrl (items.take 5) processed := by
        simp [extract_bundle_products, hsi]
      rw [hstep]
      obtain ⟨a, b, c, d, e, _⟩ := bundleLoop_invariant respUrl (items.take 5) processed
      refine ⟨?_, b, c, d, e⟩
      calc (bundleLoop respUrl (items.take 5) processed).1.length
          ≤ (items.take 5).length := a
        _ ≤ 5 := List.length_take_le 5 items

/-! ### C9 : product id / variant id invariant -/

/-- **C9.** In every row produced by `parse_product`, `Ref Varient ID`
equals `Ref Product ID`, and that common value is the bvDCC `productId` when
the blob yields one (which is never empty), else the uppercase 6–8 character
id from the URL, else the empty string. -/
theorem cymax_product_variant_id_eq (page : CymaxPage) (url now : String) :
    (parse_product page url now).refVariantId = (parse_product page url now).refProductId
    ∧ (parse_product page url now).refProductId =
        (match (cymaxFindBvDCC page.html).bind bvProductId with
         | some p => if p = "" then
             (match urlIdSearch url with
              | some g => g
              | none => p)
           else p
         | none =>
             (match urlIdSearch url with
              | some g => g
              | none => "")) := by
  simp only [parse_product]
  rcases hb : cymaxFindBvDCC page.html with _ | blob
  · simp only [Option.getD, Option.none_bind]
    rcases hu : urlIdSearch url with _ | g
    · simp
    · simp
  · simp only [Option.some_bind]
    rcases hp : bvProductId blob with _ | p
    · simp only [Option.getD]
      rcases hu : urlIdSearch url with _ | g
      · simp
      · simp
    · simp only [Option.getD]
      rcases hu : urlIdSearch url with _ | g
      · simp
      · by_cases hpe : p = ""
        · simp [hpe]
        · simp [hpe]

/-! ### C4 : cymax source priority -/

/-- Transport a property along a successful leftmost regex search. -/
theorem regexSearch_some {α : Type} (tryAt : List Char → Option α) (P : α → Prop)
    (hP : ∀ l v, tryAt l = some v → P v) :
    ∀ l v, regexSearch tryAt l = some v → P v := by
  intro l
  induction l with
  | nil =>
    intro v hv
    exact hP [] v (by simpa [regexSearch] using hv)
  | cons c rest ih =>
    intro v hv
    simp only [regexSearch] at hv
    rcases htry : tryAt (c :: rest) with _ | w
    · rw [htry] at hv
      exact ih v (by simpa using hv)
    · rw [htry] at hv
      simp only [Option.some.injEq] at hv
      subst hv
      exact hP _ _ htry

/-- A value produced by the quoted-key scanner respects the lower length
bound. -/
theorem tryKeyQuotedAt_length (key : String) (lo : Nat) (hi : Option Nat)
    (l : List Char) (s : String) (h : tryKeyQuotedAt key lo hi l = some s) :
    lo ≤ s.length := by
  simp only [tryKeyQuotedAt] at h
  rcases hrun : keyQuotedRun key l with _ | run
  · rw [hrun] at h; cases h
  · rw [hrun] at h
    rcases hi with _ | hb
    · simp only at h
      by_cases hlo : lo ≤ run.length
      · rw [if_pos hlo] at h
        cases h
        simpa [String.length] using hlo
      · rw [if_neg hlo] at h; cases h
    · simp only at h
      by_cases hc : lo ≤ run.length ∧ run.length ≤ hb
      · rw [if_pos hc] at h
        cases h
        simpa [String.length] using hc.1
      · rw [if_neg hc] at h; cases h

/-- `findKeyQuoted` values respect the lower length bound. -/
theorem findKeyQuoted_length (key : String) (lo : Nat) (hi : Option Nat)
    (blob s : String) (h : findKeyQuoted key lo hi blob = some s) :
    lo ≤ s.length :=
  regexSearch_some (tryKeyQuotedAt key lo hi) (fun v => lo ≤ v.length)
    (fun l v hv => tryKeyQuotedAt_length key lo hi l v hv) blob.data s h

/-- **C4.** In `parse_product`, the bvDCC JSON blob wins over the HTML
selector fallbacks: when the blob yields a product name (10–200 characters),
brand name, or image URL, the corresponding output field equals that value;
when the blob yields nothing for a field, the field equals the selector
fallback chain's value; and the price always comes from its selector chain
(the blob has no price source). -/
theorem cymax_source_priority (page page2 : CymaxPage)
    (url url2 now now2 blob blob2 nm b im : String)
    (hb1 : cymaxFindBvDCC page.html = some blob)
    (hnm : bvName blob = some nm)
    (hbr : bvBrand blob = some b)
    (him : bvImage blob = some im)
    (hb2 : cymaxFindBvDCC page2.html = some blob2)
    (hnm2 : bvName blob2 = none)
    (hbr2 : bvBrand blob2 = none)
    (him2 : bvImage blob2 = none) :
    (parse_product page url now).refProductName = nm
    ∧ (parse_product page url now).refBrandName = b
    ∧ (parse_product page url now).refMainImage = im
    ∧ (parse_product page2 url2 now2).refProductName = selNameVal page2
    ∧ (parse_product page2 url2 now2).refBrandName = selBrandVal page2
    ∧ (parse_product page2 url2 now2).refMainImage = selImageVal page2
    ∧ (parse_product page url now).refPrice = selPriceVal page
    ∧ (parse_product page2 url2 now2).refPrice = selPriceVal page2 := by
  have hnmne : nm ≠ "" := by
    have := findKeyQuoted_length "productName" 10 (some 200) blob nm hnm
    intro he
    rw [he] at this
    simp at this
  have hbne : b ≠ "" := by
    have := findKeyQuoted_length "brandName" 1 none blob b hbr
    intro he
    rw [he] at this
    simp at this
  have himne : im ≠ "" := by
    have := findKeyQuoted_length "productImageURL" 1 none blob im him
    intro he
    rw [he] at this
    simp at this
  refine ⟨?_, ?_, ?_, ?_, ?_, ?_, ?_, ?_⟩
  · simp only [parse_product, hb1, hnm, Option.getD]
    rw [if_neg hnmne]
  · simp only [parse_product, hb1, hbr, Option.getD]
    rw [if_neg hbne]
  · simp only [parse_product, hb1, him, Option.getD]
    rw [if_neg himne]
  · simp only [parse_product, hb2, hnm2, Option.getD]
    simp
  · simp only [parse_product, hb2, hbr2, Option.getD]
    simp
  · simp only [parse_product, hb2, him2, Option.getD]
    simp
  · simp only [parse_product]
  · simp only [parse_product]

/-- Witness for C4 at two concrete pages: a full bvDCC blob and an empty
one. -/
theorem cymax_source_priority_witness :
    cymaxFindBvDCC cymaxFullPage.html
      = some "\x7b\"productName\": \"Amazing Walnut Desk\", \"brandName\": \"Acme\", \"productImageURL\": \"http://img/x.jpg\"\x7d"
    ∧ (parse_product cymaxFullPage "" "").refProductName = "Amazing Walnut Desk"
    ∧ (parse_product cymaxFullPage "" "").refBrandName = "Acme"
    ∧ (parse_product cymaxFullPage "" "").refMainImage = "http://img/x.jpg"
    ∧ (parse_product cymaxBlankBlobPage "" "").refProductName = selNameVal cymaxBlankBlobPage
    ∧ (parse_product cymaxBlankBlobPage "" "").refPrice = selPriceVal cymaxBlankBlobPage := by
  have h := cymax_source_priority cymaxFullPage cymaxBlankBlobPage "" "" "" ""
    "\x7b\"productName\": \"Amazing Walnut Desk\", \"brandName\": \"Acme\", \"productImageURL\": \"http://img/x.jpg\"\x7d"
    "\x7b\x7d" "Amazing Walnut Desk" "Acme" "http://img/x.jpg"
    (by decide) (by decide) (by decide) (by decide) (by decide) (by decide)
    (by decide) (by decide)
  exact ⟨by decide, h.1, h.2.1, h.2.2.1, h.2.2.2.1, h.2.2.2.2.2.2.2⟩

/-! ### C1 : graceful degradation to the empty string -/

/-- A scan over scripts none of which returns yields the default. -/
theorem scanScripts_all_none {α : Type} (try1 : Option Json → Option α) (dflt : α) :
    ∀ scripts : List (Option Json), (∀ s ∈ scripts, try1 s = none) →
      scanScripts try1 dflt scripts = dflt := by
  intro scripts
  induction scripts with
  | nil => intro _; rfl
  | cons s rest ih =>
    intro h
    have hs := h s (List.mem_cons_self s rest)
    simp [scanScripts, hs, ih (fun s' hs' => h s' (List.mem_cons_of_mem s hs'))]

/-- On a script with no relevant JSON-LD object, every legacy per-script
attempt falls through. -/
theorem legacyTry_none (s : Option Json) (h : legacyRelevant s = false) :
    tryPrice s = none ∧ trySku s = none ∧ tryMpn s = none ∧ tryBrand s = none
    ∧ tryMainImage s = none ∧ tryStatus s = none ∧ tryGroupAttr1 s = none
    ∧ tryCategory s = none ∧ tryCategoryUrl s = none := by
  rcases s with _ | j
  · exact ⟨rfl, rfl, rfl, rfl, rfl, rfl, rfl, rfl, rfl⟩
  · rcases j with _ | b | n | st | l | fields
    · exact ⟨rfl, rfl, rfl, rfl, rfl, rfl, rfl, rfl, rfl⟩
    · exact ⟨rfl, rfl, rfl, rfl, rfl, rfl, rfl, rfl, rfl⟩
    · exact ⟨rfl, rfl, rfl, rfl, rfl, rfl, rfl, rfl, rfl⟩
    · exact ⟨rfl, rfl, rfl, rfl, rfl, rfl, rfl, rfl, rfl⟩
    · exact ⟨rfl, rfl, rfl, rfl, rfl, rfl, rfl, rfl, rfl⟩
    · simp only [legacyRelevant, Bool.or_eq_false_iff] at h
      obtain ⟨h1, h2⟩ := h
      refine ⟨?_, ?_, ?_, ?_, ?_, ?_, ?_, ?_, ?_⟩
      · simp [tryPrice, h1]
      · simp [trySku, h1]
      · simp [tryMpn, h1]
      · simp [tryBrand, h1]
      · simp [tryMainImage, h1]
      · simp [tryStatus, h1]
      · simp [tryGroupAttr1, h1]
      · simp [tryCategory, h2]
      · simp [tryCategoryUrl, h2]

/-- When every `select_one` misses, every selector chain misses. -/
theorem selectChain_none (page : CymaxPage) (h : ∀ sel, page.selectOne sel = none) :
    ∀ selectors, selectChain page selectors = none := by
  intro selectors
  induction selectors with
  | nil => rfl
  | cons s rest ih => simp [selectChain, h s, ih]

/-- Counterexample to C1 as stated: on a page with no data sources at all,
`parse_product` returns `'In Stock'` for `Ref Quantity` and `'Inactive'` for
`Ref Status` — not the empty string — so not every field of the returned row
degrades to `''`. -/
theorem cymax_defaults_counterexample :
    (parse_product emptyCymaxPage "" "").refQuantity = "In Stock"
    ∧ (parse_product emptyCymaxPage "" "").refStatus = "Inactive"
    ∧ ¬((parse_product emptyCymaxPage "" "").refQuantity = "")
    ∧ ¬((parse_product emptyCymaxPage "" "").refStatus = "") := by
  exact ⟨by decide, by decide, by decide, by decide⟩

/-- **C1 (amended).** When no JSON-LD script parses to a relevant
Product/ProductGroup/BreadcrumbList object, every legacy extractor returns
`''`; and in cymax `parse_product`, when no data source yields a value,
every *extracted* field of the row is `''`, while `Ref Quantity` defaults to
`'In Stock'`/`'Out of Stock'`, `Ref Status` to `'Inactive'`, and the URL and
date fields are always populated. -/
theorem graceful_degradation_spec (scripts : List (Option Json))
    (page : CymaxPage) (url now : String)
    (hscripts : ∀ s ∈ scripts, legacyRelevant s = false)
    (hbv : cymaxFindBvDCC page.html = none)
    (hanch : page.breadcrumbAnchors = [])
    (hsel : ∀ sel, page.selectOne sel = none)
    (hurlid : urlIdSearch url = none)
    (hurlmpn : urlMpnSearch url = none)
    (hcolor : colorSearch url = none)
    (hsize : sizeSearch page.textContent = none) :
    extract_price scripts = ""
    ∧ extract_sku scripts = .str ""
    ∧ extract_mpn scripts = .str ""
    ∧ extract_brand scripts = .str ""
    ∧ extract_main_image scripts = .str ""
    ∧ extract_category scripts = ""
    ∧ extract_category_url scripts = .str ""
    ∧ extract_status scripts = ""
    ∧ extract_group_attr1 scripts = .str ""
    ∧ (parse_product page url now).refProductId = ""
    ∧ (parse_product page url now).refVariantId = ""
    ∧ (parse_product page url now).refCategory = ""
    ∧ (parse_product page url now).refCategoryUrl = ""
    ∧ (parse_product page url now).refBrandName = ""
    ∧ (parse_product page url now).refProductName = ""
    ∧ (parse_product page url now).refSku = ""
    ∧ (parse_product page url now).refMpn = ""
    ∧ (parse_product page url now).refGtin = ""
    ∧ (parse_product page url now).refPrice = ""
    ∧ (parse_product page url now).refMainImage = ""
    ∧ (parse_product page url now).refGroupAttr1 = ""
    ∧ (parse_product page url now).refGroupAttr2 = ""
    ∧ ((parse_product page url now).refQuantity = "In Stock"
        ∨ (parse_product page url now).refQuantity = "Out of Stock")
    ∧ (parse_product page url now).refStatus = "Inactive"
    ∧ (parse_product page url now).refProductUrl = url
    ∧ (parse_product page url now).dateScrapped = now := by
  have htries := fun s hs => legacyTry_none s (hscripts s hs)
  have hchain := selectChain_none page hsel
  have hname : selNameVal page = "" := by simp [selNameVal, hchain]
  have hbrand : selBrandVal page = "" := by simp [selBrandVal, hchain]
  have hprice : selPriceVal page = "" := by simp [selPriceVal, hchain]
  have himage : selImageVal page = "" := by simp [selImageVal, hchain]
  refine ⟨?_, ?_, ?_, ?_, ?_, ?_, ?_, ?_, ?_, ?_, ?_, ?_, ?_, ?_, ?_, ?_, ?_,
    ?_, ?_, ?_, ?_, ?_, ?_, ?_, ?_, ?_⟩
  · exact scanScripts_all_none _ _ scripts (fun s hs => (htries s hs).1)
  · exact scanScripts_all_none _ _ scripts (fun s hs => (htries s hs).2.1)
  · exact scanScripts_all_none _ _ scripts (fun s hs => (htries s hs).2.2.1)
  · exact scanScripts_all_none _ _ scripts (fun s hs => (htries s hs).2.2.2.1)
  · exact scanScripts_all_none _ _ scripts (fun s hs => (htries s hs).2.2.2.2.1)
  · exact scanScripts_all_none _ _ scripts (fun s hs => (htries s hs).2.2.2.2.2.2.2.1)
  · exact scanScripts_all_none _ _ scripts (fun s hs => (htries s hs).2.2.2.2.2.2.2.2)
  · exact scanScripts_all_none _ _ scripts (fun s hs => (htries s hs).2.2.2.2.2.1)
  · exact scanScripts_all_none _ _ scripts (fun s hs => (htries s hs).2.2.2.2.2.2.1)
  · simp [parse_product, hbv, hurlid]
  · simp [parse_product, hbv, hurlid]
  · simp [parse_product, hanch]
  · simp [parse_product, hanch]
  · simp [parse_product, hbv, hbrand]
  · simp [parse_product, hbv, hname]
  · simp [parse_product, hbv, hurlmpn]
  · simp [parse_product, hbv, hurlmpn]
  · simp [parse_product]
  · simp [parse_product, hprice]
  · simp [parse_product, hbv, himage]
  · simp [parse_product, hcolor]
  · simp [parse_product, hsize]
  · by_cases hq : strHas (strLower page.textContent) "out of stock"
        ∨ strHas (strLower page.textContent) "sold out"
        ∨ strHas (strLower page.textContent) "unavailable"
    · right; simp [parse_product, hq]
    · left; simp [parse_product, hq]
  · simp [parse_product, hbv, hname, hprice]
  · simp [parse_product]
  · simp [parse_product]

/-- Witness for C1 (amended) at concrete irrelevant scripts and an empty
page. -/
theorem graceful_degradation_spec_witness :
    legacyRelevant (some (.obj [("@type", Json.str "Thing")])) = false
    ∧ cymaxFindBvDCC emptyCymaxPage.html = none
    ∧ extract_price c1Scripts = ""
    ∧ extract_category_url c1Scripts = .str ""
    ∧ (parse_product emptyCymaxPage "" "").refProductName = ""
    ∧ (parse_product emptyCymaxPage "" "").refStatus = "Inactive" := by
  have h := graceful_degradation_spec c1Scripts emptyCymaxPage "" ""
    (by intro s hs; fin_cases hs <;> rfl) (by decide) rfl (fun _ => rfl)
    (by decide) (by decide) (by decide) (by decide)
  exact ⟨by decide, by decide, h.1, h.2.2.2.2.2.2.1,
    h.2.2.2.2.2.2.2.2.2.2.2.2.2.2.1, h.2.2.2.2.2.2.2.2.2.2.2.2.2.2.2.2.2.2.2.2.2.2.2.1⟩

/-! ### C5 : breadcrumb category extraction -/

/-- Each Product-branch mutation keeps the category fields. -/
theorem pbSku_keeps (pd : ProductData) (fields : List (String × Json)) :
    (pbSku pd fields).category = pd.category
    ∧ (pbSku pd fields).category_url = pd.category_url := by
  refine ⟨?_, ?_⟩ <;> (simp only [pbSku]; split <;> rfl)

theorem pbMpn_keeps (pd : ProductData) (fields : List (String × Json)) :
    (pbMpn pd fields).category = pd.category
    ∧ (pbMpn pd fields).category_url = pd.category_url := by
  refine ⟨?_, ?_⟩ <;> (simp only [pbMpn]; split <;> rfl)

theorem pbColor_keeps (pd : ProductData) (fields : List (String × Json)) :
    (pbColor pd fields).category = pd.category
    ∧ (pbColor pd fields).category_url = pd.category_url := by
  refine ⟨?_, ?_⟩ <;> (simp only [pbColor]; split <;> rfl)

theorem pbImage_keeps (pd : ProductData) (fields : List (String × Json)) :
    (pbImage pd fields).category = pd.category
    ∧ (pbImage pd fields).category_url = pd.category_url := by
  refine ⟨?_, ?_⟩ <;> (simp only [pbImage]; split <;> rfl)

theorem pbBrand_keeps (pd : ProductData) (fields : List (String × Json)) :
    (pbBrand pd fields).category = pd.category
    ∧ (pbBrand pd fields).category_url = pd.category_url := by
  refine ⟨?_, ?_⟩ <;>
    (simp only [pbBrand]
     split
     · rfl
     · split <;> rfl)

theorem pbOffers_keeps (pd : ProductData) (fields : List (String × Json)) :
    (pbOffers pd fields).category = pd.category
    ∧ (pbOffers pd fields).category_url = pd.category_url := by
  refine ⟨?_, ?_⟩ <;>
    (simp only [pbOffers]
     split
     · split_ifs <;> rfl
     · rfl)

/-- The Product branch never touches the category fields. -/
theorem productBranch_keeps_category (pd : ProductData)
    (fields : List (String × Json)) :
    (productBranch pd fields).category = pd.category
    ∧ (productBranch pd fields).category_url = pd.category_url := by
  simp only [productBranch]
  obtain ⟨a1, b1⟩ := pbSku_keeps pd fields
  obtain ⟨a2, b2⟩ := pbMpn_keeps (pbSku pd fields) fields
  obtain ⟨a3, b3⟩ := pbColor_keeps (pbMpn (pbSku pd fields) fields) fields
  obtain ⟨a4, b4⟩ := pbImage_keeps (pbColor (pbMpn (pbSku pd fields) fields) fields) fields
  obtain ⟨a5, b5⟩ := pbBrand_keeps
    (pbImage (pbColor (pbMpn (pbSku pd fields) fields) fields) fields) fields
  obtain ⟨a6, b6⟩ := pbOffers_keeps
    (pbBrand (pbImage (pbColor (pbMpn (pbSku pd fields) fields) fields) fields) fields) fields
  exact ⟨((((a6.trans a5).trans a4).trans a3).trans a2).trans a1,
         ((((b6.trans b5).trans b4).trans b3).trans b2).trans b1⟩

/-- Items that are not BreadcrumbList dicts never touch the category
fields. -/
theorem runItems_noBc_keeps (its : List Json)
    (h : ∀ it ∈ its, itemNotBc it = true) :
    ∀ pd : ProductData, (runItems pd its).category = pd.category
      ∧ (runItems pd its).category_url = pd.category_url := by
  induction its with
  | nil => intro pd; exact ⟨rfl, rfl⟩
  | cons it rest ih =>
    intro pd
    have hit := h it (List.mem_cons_self it rest)
    have hrest := fun it' hit' => h it' (List.mem_cons_of_mem it hit')
    rcases it with _ | b | n | st | l | fields
    · simpa [runItems, processItem] using ih hrest pd
    · simpa [runItems, processItem] using ih hrest pd
    · simpa [runItems, processItem] using ih hrest pd
    · simpa [runItems, processItem] using ih hrest pd
    · simpa [runItems, processItem] using ih hrest pd
    · simp only [itemNotBc, Bool.not_eq_true'] at hit
      by_cases hp : isProductType (jsonGet fields "@type") = true
      · have hstep : runItems pd (Json.obj fields :: rest)
            = runItems (productBranch pd fields) rest := by
          simp [runItems, processItem, hp]
        rw [hstep]
        obtain ⟨c1, c2⟩ := ih hrest (productBranch pd fields)
        obtain ⟨k1, k2⟩ := productBranch_keeps_category pd fields
        exact ⟨c1.trans k1, c2.trans k2⟩
      · have hstep : runItems pd (Json.obj fields :: rest) = runItems pd rest := by
          simp [runItems, processItem, hp, hit]
        rw [hstep]
        exact ih hrest pd
/-- A fold over scripts without breadcrumbs never touches the category
fields. -/
theorem foldl_noBc_keeps (scripts : List (Option Json))
    (h : ∀ s ∈ scripts, scriptNoBc s = true) :
    ∀ pd : ProductData, (scripts.foldl runScript pd).category = pd.category
      ∧ (scripts.foldl runScript pd).category_url = pd.category_url := by
  induction scripts with
  | nil => intro pd; exact ⟨rfl, rfl⟩
  | cons s rest ih =>
    intro pd
    have hs := h s (List.mem_cons_self s rest)
    have hrest := fun s' hs' => h s' (List.mem_cons_of_mem s hs')
    simp only [List.foldl_cons]
    have hone : (runScript pd s).category = pd.category
        ∧ (runScript pd s).category_url = pd.category_url := by
      rcases s with _ | j
      · exact ⟨rfl, rfl⟩
      · simp only [scriptNoBc, List.all_eq_true] at hs
        exact runItems_noBc_keeps (topItems j) hs pd
    obtain ⟨c1, c2⟩ := ih hrest (runScript pd s)
    exact ⟨c1.trans hone.1, c2.trans hone.2⟩

/-- `collectCrumbs` of well-formed breadcrumb entries: names pass the
home/shop/all filter, every non-empty `@id` is collected. -/
theorem collectCrumbs_bc (elems : List (String × String)) :
    collectCrumbs (elems.map (fun e =>
        Json.obj [("item", .obj [("name", .str e.1), ("@id", .str e.2)])]))
      = some ((elems.map Prod.fst).filter goodCrumbName,
              ((elems.map Prod.snd).filter (fun u => !(u = ""))).map Json.str) := by
  induction elems with
  | nil => rfl
  | cons e rest ih =>
    obtain ⟨n, u⟩ := e
    by_cases hn : n = ""
    · by_cases hu : u = ""
      · subst hn; subst hu
        simp [collectCrumbs, jsonGetD, jsonGet, Json.truthy, ih, goodCrumbName]
      · subst hn
        simp [collectCrumbs, jsonGetD, jsonGet, Json.truthy, ih, goodCrumbName, hu]
    · by_cases hskip : strLower n = "home" ∨ strLower n = "shop" ∨ strLower n = "all"
      · have hgood : goodCrumbName n = false := by simp [goodCrumbName, hn, hskip]
        by_cases hu : u = ""
        · subst hu
          simp [collectCrumbs, jsonGetD, jsonGet, Json.truthy, ih, hgood, hn, hskip]
        · simp [collectCrumbs, jsonGetD, jsonGet, Json.truthy, ih, hgood, hn, hskip, hu]
      · have hgood : goodCrumbName n = true := by simp [goodCrumbName, hn, hskip]
        by_cases hu : u = ""
        · subst hu
          simp [collectCrumbs, jsonGetD, jsonGet, Json.truthy, ih, hgood, hn, hskip]
        · simp [collectCrumbs, jsonGetD, jsonGet, Json.truthy, ih, hgood, hn, hskip, hu]

/-- Map-then-index commutes with `Json.str`. -/
theorem getD_map_str : ∀ (l : List String) (i : Nat),
    ((l.map Json.str).get? i).getD (.str "") = .str ((l.get? i).getD "")
  | [], 0 => rfl
  | [], _ + 1 => rfl
  | _ :: _, 0 => rfl
  | _ :: xs, i + 1 => getD_map_str xs i

/-- Category produced by the well-formed BreadcrumbList script. -/
theorem runScript_bc_category (pd : ProductData) (elems : List (String × String)) :
    (runScript pd (some (bcJson elems))).category
      = (if (if 1 < ((elems.map Prod.fst).filter goodCrumbName).length
             then ((elems.map Prod.fst).filter goodCrumbName).dropLast
             else (elems.map Prod.fst).filter goodCrumbName).isEmpty
         then pd.category
         else joinSep " > "
            (if 1 < ((elems.map Prod.fst).filter goodCrumbName).length
             then ((elems.map Prod.fst).filter goodCrumbName).dropLast
             else (elems.map Prod.fst).filter goodCrumbName)) := by
  simp [runScript, bcJson, topItems, runItems, processItem, jsonGet, jsonGetD,
    isProductType, optJsonEqStr, jsonEqStr, iterElements, breadcrumbBranch,
    collectCrumbs_bc, apply_ite ProductData.category]

/-- Category URL produced by the well-formed BreadcrumbList script. -/
theorem runScript_bc_url (pd : ProductData) (elems : List (String × String)) :
    (runScript pd (some (bcJson elems))).category_url
      = (if 2 ≤ ((elems.map Prod.snd).filter (fun u => !(u = ""))).length
         then Json.str
            ((((elems.map Prod.snd).filter (fun u => !(u = ""))).get?
                (((elems.map Prod.snd).filter (fun u => !(u = ""))).length - 2)).getD "")
         else pd.category_url) := by
  simp [runScript, bcJson, topItems, runItems, processItem, jsonGet, jsonGetD,
    isProductType, optJsonEqStr, jsonEqStr, iterElements, breadcrumbBranch,
    collectCrumbs_bc, apply_ite ProductData.category_url, List.length_map,
    getD_map_str]

/-- **C5.** For a page whose JSON-LD holds one BreadcrumbList (and otherwise
no breadcrumbs), `_extract_json_ld_data` sets `category` to the `' > '`-join
of the item names minus those lowercasing to home/shop/all, dropping the
last remaining name when more than one remains (the join of no names being
`''`), and sets `category_url` to the second-to-last truthy `@id` when at
least two exist, else leaves it `''`. -/
theorem coleman_breadcrumb_spec (pre post : List (Option Json))
    (elems : List (String × String))
    (hpre : ∀ s ∈ pre, scriptNoBc s = true)
    (hpost : ∀ s ∈ post, scriptNoBc s = true) :
    (extract_json_ld_data (pre ++ some (bcJson elems) :: post)).category
      = joinSep " > "
          (if 1 < ((elems.map Prod.fst).filter goodCrumbName).length
           then ((elems.map Prod.fst).filter goodCrumbName).dropLast
           else (elems.map Prod.fst).filter goodCrumbName)
    ∧ (extract_json_ld_data (pre ++ some (bcJson elems) :: post)).category_url
      = (if 2 ≤ ((elems.map Prod.snd).filter (fun u => !(u = ""))).length
         then Json.str
             ((((elems.map Prod.snd).filter (fun u => !(u = ""))).get?
                (((elems.map Prod.snd).filter (fun u => !(u = ""))).length - 2)).getD "")
         else .str "") := by
  have hsplit : extract_json_ld_data (pre ++ some (bcJson elems) :: post)
      = post.foldl runScript
          (runScript (pre.foldl runScript initProductData) (some (bcJson elems))) := by
    simp [extract_json_ld_data, List.foldl_append]
  obtain ⟨hc0, hcu0⟩ := foldl_noBc_keeps pre hpre initProductData
  obtain ⟨hcpost, hcupost⟩ := foldl_noBc_keeps post hpost
      (runScript (pre.foldl runScript initProductData) (some (bcJson elems)))
  refine ⟨?_, ?_⟩
  · rw [hsplit, hcpost, runScript_bc_category]
    split <;> split
    · rename_i hemp
      rw [hc0, List.isEmpty_iff.mp hemp]
      rfl
    · rfl
    · rename_i hemp
      rw [hc0, List.isEmpty_iff.mp hemp]
      rfl
    · rfl
  · rw [hsplit, hcupost, runScript_bc_url]
    split
    · rfl
    · rw [hcu0]
      rfl

/-- Witness for C5 at a concrete page: one failing script before, one
Product script after, and a four-element breadcrumb trail. -/
theorem coleman_breadcrumb_spec_witness :
    scriptNoBc (some (.obj [("@type", Json.str "Product")])) = true
    ∧ (extract_json_ld_data [none,
        some (bcJson [("Home", "h"), ("A", "ua"), ("B", "ub"), ("C", "uc")]),
        some (.obj [("@type", Json.str "Product")])]).category = "A > B"
    ∧ (extract_json_ld_data [none,
        some (bcJson [("Home", "h"), ("A", "ua"), ("B", "ub"), ("C", "uc")]),
        some (.obj [("@type", Json.str "Product")])]).category_url = Json.str "ub" := by
  have h := coleman_breadcrumb_spec [none] [some (.obj [("@type", Json.str "Product")])]
    [("Home", "h"), ("A", "ua"), ("B", "ub"), ("C", "uc")]
    (by intro s hs; fin_cases hs; rfl)
    (by intro s hs; fin_cases hs; rfl)
  exact ⟨by decide, h.1, h.2⟩

end Scraper
